import Mathlib

/-!
Verification of the says-so-agent backend (Python) against its specification.

The Python sources are shallowly embedded: strings are `List Char`, pure
functions become Lean functions, the route's external effects (the JSON body
parse, the Sela browse call, the activity log) become explicit parameters.
Unicode-dependent character classes (`\w`, `\d`, `\s`, `str.lower`) are
modelled on their ASCII fragment, which is the fragment the program's fixed
word lists and regex literals draw from.
-/

set_option maxRecDepth 8192

namespace SaysSo

/-! ## Python character classes (ASCII fragment) -/

/-- Word character of the regex class `[A-Za-z0-9_]` (also the ASCII fragment
of `\w`, which the program's patterns rely on for `\b`). -/
def isWordCharPy (c : Char) : Bool :=
  ('A' ≤ c && c ≤ 'Z') || ('a' ≤ c && c ≤ 'z') || ('0' ≤ c && c ≤ '9') || c = '_'

/-- ASCII decimal digit, the fragment of `\d` used by the count patterns. -/
def isDigitPy (c : Char) : Bool :=
  '0' ≤ c && c ≤ '9'

/-- ASCII fragment of Python `\s` / `str.strip` whitespace. -/
def isSpacePy (c : Char) : Bool :=
  c = ' ' || c = '\t' || c = '\n' || c = '\r' || c = '\x0b' || c = '\x0c'

/-- ASCII fragment of Python `str.lower`, applied characterwise. -/
def toLowerPy (c : Char) : Char :=
  if 'A' ≤ c && c ≤ 'Z' then Char.ofNat (c.toNat + 32) else c

/-- `str.lower` over a whole string. -/
def pyLower (s : List Char) : List Char :=
  s.map toLowerPy

/-- `str.strip()`: drop whitespace from both ends. -/
def pyStrip (s : List Char) : List Char :=
  ((s.dropWhile isSpacePy).reverse.dropWhile isSpacePy).reverse

/-- Numeric value of an ASCII digit. -/
def digitVal (c : Char) : Nat :=
  c.toNat - 48

/-- `int()` of a nonempty ASCII digit string. -/
def natOfDigits (s : List Char) : Nat :=
  s.foldl (fun acc c => 10 * acc + digitVal c) 0

/-! ## JSON string escaping — `json.dumps` on `str` (ensure_ascii=True)

Model of CPython `json.encoder.py_encode_basestring_ascii`: backslash and
double quote get two-character escapes, the characters `\b \t \n \f \r` get
their short escapes, every other character outside 0x20–0x7e is written as
`\uXXXX` (lowercase hex), with a surrogate pair for code points ≥ 0x10000;
printable ASCII passes through unchanged. -/

/-- Lowercase hex digit for a value below 16 (CPython formats with `{:04x}`). -/
def hexDig (n : Nat) : Char :=
  if n < 10 then Char.ofNat (48 + n) else Char.ofNat (87 + n)

/-- The six-character escape `\uXXXX` of a value below 0x10000. -/
def uEsc (n : Nat) : List Char :=
  ['\\', 'u', hexDig (n / 4096), hexDig (n / 256 % 16), hexDig (n / 16 % 16), hexDig (n % 16)]

/-- Escape of one character, as `py_encode_basestring_ascii` writes it. -/
def escChar (c : Char) : List Char :=
  if c = '"' then ['\\', '"']
  else if c = '\\' then ['\\', '\\']
  else if 0x20 ≤ c.toNat && c.toNat ≤ 0x7e then [c]
  else if c = '\x08' then ['\\', 'b']
  else if c = '\t' then ['\\', 't']
  else if c = '\n' then ['\\', 'n']
  else if c = '\x0c' then ['\\', 'f']
  else if c = '\r' then ['\\', 'r']
  else if c.toNat < 0x10000 then uEsc c.toNat
  else uEsc (0xD800 + (c.toNat - 0x10000) / 0x400) ++ uEsc (0xDC00 + (c.toNat - 0x10000) % 0x400)

/-- Body of the JSON string literal for `s`. -/
def escAll (s : List Char) : List Char :=
  (s.map escChar).flatten

/-- `json.dumps(s)` for a Python `str`: the escaped body between double quotes. -/
def jsonDumpsStr (s : List Char) : List Char :=
  '"' :: escAll s ++ ['"']

/-! ## JSON string decoding — `json.loads` scanstring

Model of CPython `json.decoder.py_scanstring` restricted to Unicode scalar
values: escapes are decoded, a high/low `\u` surrogate pair is combined into
one code point, unpaired surrogates are rejected (CPython would keep them as
lone surrogate code units, which `Char` cannot represent and which
`json.dumps` of a Python `str` built from scalar values never emits), and a
raw control character below 0x20 is rejected (`strict=True`). -/

/-- Value of one hex digit, upper or lower case (`int(esc, 16)`). -/
def hexVal (c : Char) : Option Nat :=
  if '0' ≤ c && c ≤ '9' then some (c.toNat - 48)
  else if 'a' ≤ c && c ≤ 'f' then some (c.toNat - 87)
  else if 'A' ≤ c && c ≤ 'F' then some (c.toNat - 55)
  else none

/-- Value of a four-hex-digit escape payload. -/
def hex4 (a b c d : Char) : Option Nat :=
  match hexVal a, hexVal b, hexVal c, hexVal d with
  | some x, some y, some z, some w => some (4096 * x + 256 * y + 16 * z + w)
  | _, _, _, _ => none

/-- Continuation of a `\uXXXX` high-surrogate escape: expect a second escape
`\uXXXX` holding the low surrogate and combine the pair into one code point. -/
def readLowSur (n : Nat) : List Char → Option (Char × List Char)
  | e1 :: e2 :: a :: b :: c :: d :: r =>
    if e1 = '\\' && e2 = 'u' then
      match hex4 a b c d with
      | none => none
      | some m =>
        if 0xDC00 ≤ m && m < 0xE000 then
          some (Char.ofNat (0x10000 + (n - 0xD800) * 0x400 + (m - 0xDC00)), r)
        else none
    else none
  | _ => none

/-- Read the four hex digits of a `\uXXXX` escape, combining a surrogate pair
and rejecting an unpaired surrogate. -/
def readUEsc : List Char → Option (Char × List Char)
  | a :: b :: c :: d :: r =>
    match hex4 a b c d with
    | none => none
    | some n =>
      if 0xD800 ≤ n && n < 0xDC00 then readLowSur n r
      else if 0xDC00 ≤ n && n < 0xE000 then none
      else some (Char.ofNat n, r)
  | _ => none

/-- Read one escape sequence (the text after a backslash); returns the decoded
character and the remaining input. -/
def readEsc : List Char → Option (Char × List Char)
  | [] => none
  | e :: r =>
    if e = '"' then some ('"', r)
    else if e = '\\' then some ('\\', r)
    else if e = '/' then some ('/', r)
    else if e = 'b' then some ('\x08', r)
    else if e = 'f' then some ('\x0c', r)
    else if e = 'n' then some ('\n', r)
    else if e = 'r' then some ('\r', r)
    else if e = 't' then some ('\t', r)
    else if e = 'u' then readUEsc r
    else none

/-- Decode the body of a JSON string literal up to (and consuming) the closing
quote; returns the decoded text and the input after the quote. `fuel` only
bounds the number of decoded characters — every step consumes at least one
input character, so any fuel above the input length is enough. -/
def decStrF : Nat → List Char → Option (List Char × List Char)
  | 0, _ => none
  | f + 1, s =>
    match s with
    | [] => none
    | c :: rest =>
      if c = '"' then some ([], rest)
      else if c = '\\' then
        match readEsc rest with
        | none => none
        | some (ch, r) => (decStrF f r).map (fun p => (ch :: p.1, p.2))
      else if c.toNat < 0x20 then none
      else (decStrF f rest).map (fun p => (c :: p.1, p.2))

/-- The decoder at its canonical fuel. -/
def decStr (s : List Char) : Option (List Char × List Char) :=
  decStrF (s.length + 1) s

/-- `json.loads` of a whole string literal: expect the opening quote, decode
the body, succeed only if the closing quote ends the input. -/
def jsonLoadsStr (s : List Char) : Option (List Char) :=
  match s with
  | '"' :: r =>
    match decStr r with
    | some (t, []) => some t
    | _ => none
  | _ => none

/-! ## Round-trip of the string codec -/

theorem hexVal_hexDig : ∀ k, k < 16 → hexVal (hexDig k) = some k := by decide

theorem hex4_digits (n : Nat) (hn : n < 65536) :
    hex4 (hexDig (n / 4096)) (hexDig (n / 256 % 16)) (hexDig (n / 16 % 16)) (hexDig (n % 16)) =
      some n := by
  unfold hex4
  rw [hexVal_hexDig _ (by omega), hexVal_hexDig _ (by omega), hexVal_hexDig _ (by omega),
    hexVal_hexDig _ (by omega)]
  simp only [Option.some.injEq]
  omega

theorem readUEsc_of_hex4 (n : Nat) (a b c d : Char) (tail : List Char)
    (hh : hex4 a b c d = some n) (hs : ¬(0xD800 ≤ n ∧ n < 0xE000)) :
    readUEsc (a :: b :: c :: d :: tail) = some (Char.ofNat n, tail) := by
  simp only [readUEsc, hh]
  rw [if_neg (by simp; omega), if_neg (by simp; omega)]

theorem readUEsc_surr_of_hex4 (hi lo : Nat) (a b c d e2 f2 g2 k2 : Char)
    (tail : List Char) (hha : hex4 a b c d = some hi) (hhb : hex4 e2 f2 g2 k2 = some lo)
    (hhi : 0xD800 ≤ hi ∧ hi < 0xDC00) (hlo : 0xDC00 ≤ lo ∧ lo < 0xE000) :
    readUEsc (a :: b :: c :: d :: '\\' :: 'u' :: e2 :: f2 :: g2 :: k2 :: tail) =
      some (Char.ofNat (0x10000 + (hi - 0xD800) * 0x400 + (lo - 0xDC00)), tail) := by
  simp only [readUEsc, hha]
  rw [if_pos (by simp; omega)]
  simp only [readLowSur]
  rw [if_pos (by simp)]
  simp only [hhb]
  rw [if_pos (by simp; omega)]

theorem decStrF_quote (f : Nat) (rest : List Char) :
    decStrF (f + 1) ('"' :: rest) = some ([], rest) := by
  simp [decStrF]

theorem decStrF_esc (f : Nat) (rest : List Char) :
    decStrF (f + 1) ('\\' :: rest) =
      match readEsc rest with
      | none => none
      | some (ch, r) => (decStrF f r).map (fun p => (ch :: p.1, p.2)) := by
  simp only [decStrF]
  simp

theorem decStrF_printable (f : Nat) (c : Char) (rest : List Char) (h1 : c ≠ '"')
    (h2 : c ≠ '\\') (h3 : ¬c.toNat < 0x20) :
    decStrF (f + 1) (c :: rest) = (decStrF f rest).map (fun p => (c :: p.1, p.2)) := by
  simp only [decStrF]
  rw [if_neg h1, if_neg h2, if_neg h3]

/-- Validity bound of a `Char`, as the disjunction the codec needs. -/
theorem char_valid_range (c : Char) :
    c.toNat < 0xD800 ∨ (0xDFFF < c.toNat ∧ c.toNat < 0x110000) := by
  have hv := c.valid
  unfold UInt32.isValidChar Nat.isValidChar at hv
  exact hv

/-- Decoding undoes the escaping of a single character at the head of the
input stream. -/
theorem decStrF_escChar (f : Nat) (c : Char) (tail : List Char) :
    decStrF (f + 1) (escChar c ++ tail) = (decStrF f tail).map (fun p => (c :: p.1, p.2)) := by
  by_cases h1 : c = '"'
  · subst h1
    rw [show escChar '"' = ['\\', '"'] from rfl]
    show decStrF (f + 1) ('\\' :: '"' :: tail) = _
    rw [decStrF_esc, show readEsc ('"' :: tail) = some ('"', tail) from rfl]
  · by_cases h2 : c = '\\'
    · subst h2
      rw [show escChar '\\' = ['\\', '\\'] from rfl]
      show decStrF (f + 1) ('\\' :: '\\' :: tail) = _
      rw [decStrF_esc, show readEsc ('\\' :: tail) = some ('\\', tail) from rfl]
    · by_cases h3 : 0x20 ≤ c.toNat ∧ c.toNat ≤ 0x7e
      · have he : escChar c = [c] := by
          unfold escChar
          rw [if_neg h1, if_neg h2, if_pos (by simp [h3.1, h3.2])]
        rw [he]
        exact decStrF_printable f c tail h1 h2 (by omega)
      · by_cases h4 : c = '\x08'
        · subst h4
          rw [show escChar '\x08' = ['\\', 'b'] from rfl]
          show decStrF (f + 1) ('\\' :: 'b' :: tail) = _
          rw [decStrF_esc, show readEsc ('b' :: tail) = some ('\x08', tail) from rfl]
        · by_cases h5 : c = '\t'
          · subst h5
            rw [show escChar '\t' = ['\\', 't'] from rfl]
            show decStrF (f + 1) ('\\' :: 't' :: tail) = _
            rw [decStrF_esc, show readEsc ('t' :: tail) = some ('\t', tail) from rfl]
          · by_cases h6 : c = '\n'
            · subst h6
              rw [show escChar '\n' = ['\\', 'n'] from rfl]
              show decStrF (f + 1) ('\\' :: 'n' :: tail) = _
              rw [decStrF_esc, show readEsc ('n' :: tail) = some ('\n', tail) from rfl]
            · by_cases h7 : c = '\x0c'
              · subst h7
                rw [show escChar '\x0c' = ['\\', 'f'] from rfl]
                show decStrF (f + 1) ('\\' :: 'f' :: tail) = _
                rw [decStrF_esc, show readEsc ('f' :: tail) = some ('\x0c', tail) from rfl]
              · by_cases h8 : c = '\r'
                · subst h8
                  rw [show escChar '\r' = ['\\', 'r'] from rfl]
                  show decStrF (f + 1) ('\\' :: 'r' :: tail) = _
                  rw [decStrF_esc, show readEsc ('r' :: tail) = some ('\r', tail) from rfl]
                · by_cases h9 : c.toNat < 0x10000
                  · have he : escChar c = uEsc c.toNat := by
                      unfold escChar
                      rw [if_neg h1, if_neg h2, if_neg (by simpa using fun hx => (h3 ⟨hx, ·⟩)),
                        if_neg h4, if_neg h5, if_neg h6, if_neg h7, if_neg h8, if_pos h9]
                    rw [he]
                    show decStrF (f + 1) ('\\' :: 'u' :: _ :: _ :: _ :: _ :: tail) = _
                    rw [decStrF_esc]
                    rw [show ∀ r : List Char, readEsc ('u' :: r) = readUEsc r from fun _ => rfl]
                    have hs : ¬(0xD800 ≤ c.toNat ∧ c.toNat < 0xE000) := by
                      rcases char_valid_range c with h | h
                      · omega
                      · omega
                    rw [readUEsc_of_hex4 c.toNat _ _ _ _ tail (hex4_digits c.toNat h9) hs,
                      Char.ofNat_toNat]
                  · have he : escChar c = uEsc (0xD800 + (c.toNat - 0x10000) / 0x400) ++
                        uEsc (0xDC00 + (c.toNat - 0x10000) % 0x400) := by
                      unfold escChar
                      rw [if_neg h1, if_neg h2, if_neg (by simpa using fun hx => (h3 ⟨hx, ·⟩)),
                        if_neg h4, if_neg h5, if_neg h6, if_neg h7, if_neg h8, if_neg h9]
                    rw [he]
                    show decStrF (f + 1) ('\\' :: 'u' :: _ :: _ :: _ :: _ ::
                      ('\\' :: 'u' :: _ :: _ :: _ :: _ :: tail)) = _
                    rw [decStrF_esc]
                    rw [show ∀ r : List Char, readEsc ('u' :: r) = readUEsc r from fun _ => rfl]
                    have h10 : c.toNat < 0x110000 := by
                      rcases char_valid_range c with h | h
                      · omega
                      · omega
                    rw [readUEsc_surr_of_hex4 (0xD800 + (c.toNat - 0x10000) / 0x400)
                      (0xDC00 + (c.toNat - 0x10000) % 0x400) _ _ _ _ _ _ _ _ tail
                      (hex4_digits _ (by omega)) (hex4_digits _ (by omega))
                      ⟨by omega, by omega⟩ ⟨by omega, by omega⟩]
                    have harith : 0x10000 +
                        (0xD800 + (c.toNat - 0x10000) / 0x400 - 0xD800) * 0x400 +
                        (0xDC00 + (c.toNat - 0x10000) % 0x400 - 0xDC00) = c.toNat := by
                      omega
                    rw [harith, Char.ofNat_toNat]

/-- Decoding undoes escaping, for any fuel at least the fragment length. -/
theorem decStrF_escAll : ∀ (s : List Char) (k : Nat) (rest : List Char),
    s.length ≤ k → decStrF (k + 1) (escAll s ++ '"' :: rest) = some (s, rest)
  | [], k, rest, _ => by
    simpa [escAll] using decStrF_quote k rest
  | c :: s', k, rest, hk => by
    have hk1 : 1 ≤ k := by
      simp only [List.length_cons] at hk
      omega
    have he : escAll (c :: s') = escChar c ++ escAll s' := by
      simp [escAll]
    have hke : k = (k - 1) + 1 := by omega
    have ih := decStrF_escAll s' (k - 1) rest
      (by simp only [List.length_cons] at hk; omega)
    rw [he, List.append_assoc, hke, decStrF_escChar, ih]
    rfl

/-- Decoding undoes escaping at the canonical fuel. -/
theorem decStr_escAll (s rest : List Char) :
    decStr (escAll s ++ '"' :: rest) = some (s, rest) := by
  unfold decStr
  have hlen : (escAll s ++ '"' :: rest).length = (escAll s).length + rest.length + 1 := by
    simp only [List.length_append, List.length_cons]
    omega
  have hesc : s.length ≤ (escAll s).length := by
    clear hlen
    induction s with
    | nil => simp [escAll]
    | cons c s' ih =>
      have h1 : 1 ≤ (escChar c).length := by
        unfold escChar
        repeat' split
        all_goals simp [uEsc]
      have he : escAll (c :: s') = escChar c ++ escAll s' := by
        simp [escAll]
      rw [he]
      simp only [List.length_cons, List.length_append]
      omega
  rw [hlen, show (escAll s).length + rest.length + 1 + 1 =
    ((escAll s).length + rest.length + 1) + 1 from rfl]
  exact decStrF_escAll s ((escAll s).length + rest.length + 1) rest (by omega)

/-- `json.loads(json.dumps(s)) == s` for every text fragment. -/
theorem jsonLoadsStr_jsonDumpsStr (s : List Char) :
    jsonLoadsStr (jsonDumpsStr s) = some s := by
  show jsonLoadsStr ('"' :: (escAll s ++ ['"'])) = some s
  have h : decStr (escAll s ++ ['"']) = some (s, []) := by
    have h0 := decStr_escAll s []
    rw [show escAll s ++ '"' :: ([] : List Char) = escAll s ++ ['"'] from rfl] at h0
    exact h0
  simp [jsonLoadsStr, h]

/-- Decoding a run of characters that need no escaping stops at the closing
quote and returns the run verbatim. -/
theorem decStrF_safe : ∀ (l : List Char) (k : Nat) (rest : List Char),
    l.length ≤ k → (∀ c ∈ l, c ≠ '"' ∧ c ≠ '\\' ∧ ¬c.toNat < 0x20) →
    decStrF (k + 1) (l ++ '"' :: rest) = some (l, rest)
  | [], k, rest, _, _ => decStrF_quote k rest
  | c :: l', k, rest, hk, h => by
    have hc := h c (by simp)
    have hk1 : 1 ≤ k := by
      simp only [List.length_cons] at hk
      omega
    have hke : k = (k - 1) + 1 := by omega
    have ih := decStrF_safe l' (k - 1) rest
      (by simp only [List.length_cons] at hk; omega) (fun x hx => h x (by simp [hx]))
    show decStrF (k + 1) (c :: (l' ++ '"' :: rest)) = _
    rw [hke, decStrF_printable _ c _ hc.1 hc.2.1 hc.2.2, ih]
    rfl

/-- `decStr` on a safe run, at the canonical fuel. -/
theorem decStr_safe (l rest : List Char)
    (h : ∀ c ∈ l, c ≠ '"' ∧ c ≠ '\\' ∧ ¬c.toNat < 0x20) :
    decStr (l ++ '"' :: rest) = some (l, rest) := by
  unfold decStr
  have hlen : (l ++ '"' :: rest).length = l.length + rest.length + 1 := by
    simp only [List.length_append, List.length_cons]
    omega
  rw [hlen, show l.length + rest.length + 1 + 1 =
    (l.length + rest.length + 1) + 1 from rfl]
  exact decStrF_safe l (l.length + rest.length + 1) rest (by omega) h

/-! ## Minimal JSON value parser

A parser for the whitespace-free JSON subset the backend emits (objects,
arrays, strings, booleans, `null`, and unsigned integers). It accepts a
sublanguage of JSON, so a successful parse certifies that a payload is valid
JSON; `fuel` bounds the recursion depth and every caller passes more fuel
than the input length, which the nesting depth never exceeds. -/

inductive JVal where
  | str (s : List Char)
  | num (n : Nat)
  | bool (b : Bool)
  | null
  | arr (xs : List JVal)
  | obj (ms : List (List Char × JVal))

mutual

def parseVal : Nat → List Char → Option (JVal × List Char)
  | 0, _ => none
  | fuel + 1, s =>
    match s with
    | [] => none
    | c :: r =>
      if c = '"' then (decStr r).map (fun p => (JVal.str p.1, p.2))
      else if c = '{' then
        match r with
        | [] => none
        | c2 :: r2 =>
          if c2 = '}' then some (JVal.obj [], r2)
          else (parseMembers fuel (c2 :: r2)).map (fun p => (JVal.obj p.1, p.2))
      else if c = '[' then
        match r with
        | [] => none
        | c2 :: r2 =>
          if c2 = ']' then some (JVal.arr [], r2)
          else (parseElems fuel (c2 :: r2)).map (fun p => (JVal.arr p.1, p.2))
      else if c = 't' then
        if r.take 3 = ['r', 'u', 'e'] then some (JVal.bool true, r.drop 3) else none
      else if c = 'f' then
        if r.take 4 = ['a', 'l', 's', 'e'] then some (JVal.bool false, r.drop 4) else none
      else if c = 'n' then
        if r.take 3 = ['u', 'l', 'l'] then some (JVal.null, r.drop 3) else none
      else if isDigitPy c then
        some (JVal.num (natOfDigits (c :: r.takeWhile isDigitPy)), r.dropWhile isDigitPy)
      else none

def parseMembers : Nat → List Char → Option (List (List Char × JVal) × List Char)
  | 0, _ => none
  | fuel + 1, s =>
    match s with
    | [] => none
    | c :: r =>
      if c = '"' then
        match decStr r with
        | none => none
        | some (key, r2) =>
          match r2 with
          | [] => none
          | c2 :: r3 =>
            if c2 = ':' then
              match parseVal fuel r3 with
              | none => none
              | some (v, r4) =>
                match r4 with
                | [] => none
                | c3 :: r5 =>
                  if c3 = ',' then
                    (parseMembers fuel r5).map (fun p => ((key, v) :: p.1, p.2))
                  else if c3 = '}' then some ([(key, v)], r5)
                  else none
            else none
      else none

def parseElems : Nat → List Char → Option (List JVal × List Char)
  | 0, _ => none
  | fuel + 1, s =>
    match parseVal fuel s with
    | none => none
    | some (v, r) =>
      match r with
      | [] => none
      | c :: r2 =>
        if c = ',' then (parseElems fuel r2).map (fun p => (v :: p.1, p.2))
        else if c = ']' then some ([v], r2)
        else none

end

/-- Parse a complete JSON value: the whole input must be consumed. -/
def jsonParse (s : List Char) : Option JVal :=
  match parseVal (s.length + 1) s with
  | some (v, []) => some v
  | _ => none

/-! ## Stream Encoder — `backend/data_stream.py`

`_encode_start` draws `uuid.uuid4().hex[:24]` from the environment; the model
takes that 24-character lowercase-hex string as the parameter `idHex`. -/

/-- `_encode_text_delta`: the line `0:<json.dumps(text)>\n`. -/
def encode_text_delta (text : List Char) : List Char :=
  '0' :: ':' :: (jsonDumpsStr text ++ ['\n'])

/-- `_encode_start`: the line `f:{"messageId":"msg-<idHex>"}\n`. -/
def encode_start (idHex : List Char) : List Char :=
  "f:\x7b\"messageId\":\"msg-".data ++ (idHex ++ "\"\x7d\n".data)

/-- `_encode_step_finish`: fixed step-finish frame. -/
def encode_step_finish : List Char :=
  "e:\x7b\"finishReason\":\"stop\",\"usage\":\x7b\"promptTokens\":0,\"completionTokens\":0\x7d,\"isContinued\":false\x7d\n".data

/-- `_encode_done`: fixed done frame. -/
def encode_done : List Char :=
  "d:\x7b\"finishReason\":\"stop\",\"usage\":\x7b\"promptTokens\":0,\"completionTokens\":0\x7d\x7d\n".data

/-- The text-delta frames of `format_data_stream`'s loop: one frame per
truthy (non-empty) chunk, in order. -/
def encodeDeltas : List (List Char) → List (List Char)
  | [] => []
  | t :: ts => if t.isEmpty then encodeDeltas ts else encode_text_delta t :: encodeDeltas ts

/-- `format_data_stream`, with the lazy async generator embedded as the
finite list of chunks the upstream iterator yields. -/
def format_data_stream (idHex : List Char) (chunks : List (List Char)) : List (List Char) :=
  encode_start idHex :: (encodeDeltas chunks ++ [encode_step_finish, encode_done])

theorem encodeDeltas_eq_filter_map (chunks : List (List Char)) :
    encodeDeltas chunks = (chunks.filter (fun t => !t.isEmpty)).map encode_text_delta := by
  induction chunks with
  | nil => rfl
  | cons t ts ih =>
    by_cases h : t.isEmpty
    · simp [encodeDeltas, h, ih]
    · simp [encodeDeltas, h, ih]

theorem encode_text_delta_newline (t : List Char) :
    ∃ p, encode_text_delta t = p ++ ['\n'] := by
  refine ⟨'0' :: ':' :: jsonDumpsStr t, ?_⟩
  simp [encode_text_delta]

theorem encode_start_newline (idHex : List Char) :
    ∃ p, encode_start idHex = p ++ ['\n'] := by
  refine ⟨"f:\x7b\"messageId\":\"msg-".data ++ (idHex ++ "\"\x7d".data), ?_⟩
  show _ = ("f:\x7b\"messageId\":\"msg-".data ++ (idHex ++ "\"\x7d".data)) ++ ['\n']
  rw [List.append_assoc, List.append_assoc]
  rfl

theorem encode_step_finish_newline : ∃ p, encode_step_finish = p ++ ['\n'] :=
  ⟨"e:\x7b\"finishReason\":\"stop\",\"usage\":\x7b\"promptTokens\":0,\"completionTokens\":0\x7d,\"isContinued\":false\x7d".data,
    rfl⟩

theorem encode_done_newline : ∃ p, encode_done = p ++ ['\n'] :=
  ⟨"d:\x7b\"finishReason\":\"stop\",\"usage\":\x7b\"promptTokens\":0,\"completionTokens\":0\x7d\x7d".data,
    rfl⟩

/-- The parsed form of the step-finish payload. -/
def stepFinishJ : JVal :=
  JVal.obj [("finishReason".data, JVal.str "stop".data),
    ("usage".data, JVal.obj [("promptTokens".data, JVal.num 0),
      ("completionTokens".data, JVal.num 0)]),
    ("isContinued".data, JVal.bool false)]

/-- The parsed form of the done payload. -/
def doneJ : JVal :=
  JVal.obj [("finishReason".data, JVal.str "stop".data),
    ("usage".data, JVal.obj [("promptTokens".data, JVal.num 0),
      ("completionTokens".data, JVal.num 0)])]

/-- **C2.** For every finite input sequence of text fragments, the Stream
Encoder emits exactly one Start frame (carrying the generated identifier)
first, then one TextDelta frame per non-empty fragment in their original
order (empty fragments produce no frame), then exactly one StepFinish frame
whose payload parses to reason `"stop"` with zero token-usage counters, then
exactly one Done frame with the same reason and counters; every emitted line
is newline-terminated and no frame is reordered or dropped. -/
theorem C2_stream_encoder_frames (idHex : List Char) (chunks : List (List Char)) :
    format_data_stream idHex chunks =
      encode_start idHex ::
        ((chunks.filter (fun t => !t.isEmpty)).map encode_text_delta ++
          [encode_step_finish, encode_done]) ∧
    (∀ line ∈ format_data_stream idHex chunks, ∃ p, line = p ++ ['\n']) ∧
    jsonParse (encode_step_finish.drop 2).dropLast = some stepFinishJ ∧
    jsonParse (encode_done.drop 2).dropLast = some doneJ := by
  refine ⟨?_, ?_, rfl, rfl⟩
  · rw [format_data_stream, encodeDeltas_eq_filter_map]
  · intro line hl
    rw [format_data_stream] at hl
    rcases List.mem_cons.mp hl with h | h
    · exact h ▸ encode_start_newline idHex
    · rcases List.mem_append.mp h with h2 | h2
      · rw [encodeDeltas_eq_filter_map] at h2
        rcases List.mem_map.mp h2 with ⟨t, _, rfl⟩
        exact encode_text_delta_newline t
      · rcases List.mem_cons.mp h2 with h3 | h3
        · exact h3 ▸ encode_step_finish_newline
        · rcases List.mem_cons.mp h3 with h4 | h4
          · exact h4 ▸ encode_done_newline
          · simp at h4

/-- **C2 witness.** The frame list for a concrete identifier and fragment
sequence, with an empty fragment skipped. -/
theorem C2_witness :
    format_data_stream "0123456789abcdef01234567".data ["Hi".data, [], "!".data] =
      encode_start "0123456789abcdef01234567".data ::
        ((["Hi".data, [], "!".data].filter (fun t => !t.isEmpty)).map
          encode_text_delta ++ [encode_step_finish, encode_done]) :=
  (C2_stream_encoder_frames "0123456789abcdef01234567".data
    ["Hi".data, [], "!".data]).1

/-- **C8.** Round-trip: the TextDelta frame the Encoder emits for a fragment
is `0:` followed by the JSON string literal of the fragment and a newline,
and JSON-decoding that payload reproduces the fragment's exact content,
including embedded quotes, newlines and control characters. -/
theorem C8_textdelta_roundtrip (t : List Char) :
    encode_text_delta t = '0' :: ':' :: (jsonDumpsStr t ++ ['\n']) ∧
    jsonLoadsStr (jsonDumpsStr t) = some t :=
  ⟨rfl, jsonLoadsStr_jsonDumpsStr t⟩

/-- **C8 witness.** The round-trip at a fragment holding a quote, a newline,
a control character, a non-ASCII letter and an astral code point. -/
theorem C8_witness :
    jsonLoadsStr (jsonDumpsStr ['a', '"', '\n', '\x01', 'é', '𝄞']) =
      some ['a', '"', '\n', '\x01', 'é', '𝄞'] :=
  (C8_textdelta_roundtrip ['a', '"', '\n', '\x01', 'é', '𝄞']).2

/-! ### Parsing the Start frame payload -/

theorem hex_chars_safe :
    ∀ c ∈ ("0123456789abcdef".data), c ≠ '"' ∧ c ≠ '\\' ∧ ¬c.toNat < 0x20 := by
  decide

theorem msg_chars_safe :
    ∀ c ∈ ("msg-".data), c ≠ '"' ∧ c ≠ '\\' ∧ ¬c.toNat < 0x20 := by
  decide

theorem parseMembers_start (f : Nat) (idHex : List Char)
    (hid : ∀ c ∈ idHex, c ∈ ("0123456789abcdef".data)) :
    parseMembers (f + 2)
      ('"' :: ("messageId".data ++ '"' :: ':' :: '"' ::
        ("msg-".data ++ (idHex ++ ('"' :: '\x7d' :: []))))) =
      some ([("messageId".data, JVal.str ("msg-".data ++ idHex))], []) := by
  have hsafe : ∀ c ∈ ("msg-".data ++ idHex), c ≠ '"' ∧ c ≠ '\\' ∧ ¬c.toNat < 0x20 := by
    intro c hc
    rcases List.mem_append.mp hc with h | h
    · exact msg_chars_safe c h
    · exact hex_chars_safe c (hid c h)
  have hkey : decStr ("messageId".data ++ '"' :: ':' :: '"' ::
      ("msg-".data ++ (idHex ++ ('"' :: '\x7d' :: [])))) =
      some ("messageId".data,
        ':' :: '"' :: ("msg-".data ++ (idHex ++ ('"' :: '\x7d' :: [])))) :=
    decStr_safe _ _ (by decide)
  have e1 : "msg-".data ++ (idHex ++ ('"' :: '\x7d' :: [])) =
      ("msg-".data ++ idHex) ++ '"' :: ['\x7d'] := by
    rw [List.append_assoc]
  have hv : parseVal (f + 1)
      ('"' :: ("msg-".data ++ (idHex ++ ('"' :: '\x7d' :: [])))) =
      some (JVal.str ("msg-".data ++ idHex), ['\x7d']) := by
    simp only [parseVal]
    rw [e1, decStr_safe _ _ hsafe]
    simp
  show parseMembers ((f + 1) + 1) _ = _
  simp only [parseMembers, hkey, hv]
  simp

theorem parseVal_start_payload (f : Nat) (idHex : List Char)
    (hid : ∀ c ∈ idHex, c ∈ ("0123456789abcdef".data)) :
    parseVal (f + 3) ("\x7b\"messageId\":\"msg-".data ++ (idHex ++ "\"\x7d".data)) =
      some (JVal.obj [("messageId".data, JVal.str ("msg-".data ++ idHex))], []) := by
  show parseVal ((f + 2) + 1)
    ('\x7b' :: ('"' :: ("messageId".data ++ '"' :: ':' :: '"' ::
      ("msg-".data ++ (idHex ++ ('"' :: '\x7d' :: [])))))) = _
  simp only [parseVal]
  rw [if_neg (show ¬('{' = '"') by decide), if_pos (show True from trivial),
    if_neg (show ¬('"' = '}') by decide), parseMembers_start f idHex hid]
  rfl

theorem jsonParse_start_payload (idHex : List Char)
    (hid : ∀ c ∈ idHex, c ∈ ("0123456789abcdef".data)) :
    jsonParse ("\x7b\"messageId\":\"msg-".data ++ (idHex ++ "\"\x7d".data)) =
      some (JVal.obj [("messageId".data, JVal.str ("msg-".data ++ idHex))]) := by
  unfold jsonParse
  have hlen : ("\x7b\"messageId\":\"msg-".data ++ (idHex ++ "\"\x7d".data)).length + 1 =
      (idHex.length + 18) + 3 := by
    have h1 : ("\x7b\"messageId\":\"msg-".data).length = 18 := rfl
    have h2 : ("\"\x7d".data).length = 2 := rfl
    simp only [List.length_append, h1, h2]
    omega
  rw [hlen, parseVal_start_payload (idHex.length + 18) idHex hid]

/-- **C9 counterexample.** On the fragment sequence `["Hel", "lo", ""]` the
Encoder produces five lines (Start, two TextDelta, StepFinish, Done), not
the four the claim states. -/
theorem C9_counterexample :
    (format_data_stream "0123456789abcdef01234567".data
      ["Hel".data, "lo".data, []]).length = 5 ∧
    ¬(format_data_stream "0123456789abcdef01234567".data
      ["Hel".data, "lo".data, []]).length = 4 := by
  have h5 : (format_data_stream "0123456789abcdef01234567".data
      ["Hel".data, "lo".data, []]).length = 5 := rfl
  exact ⟨h5, by omega⟩

/-- **C9 amended.** Given the fragment sequence `["Hel", "lo", ""]`, the
Encoder produces exactly 5 lines: one Start, the TextDelta frames for
`"Hel"` and `"lo"` in that order (the empty fragment skipped), then
StepFinish, then Done; each line's payload parses as JSON on its own, and
the TextDelta payloads decode back to `"Hel"` and `"lo"` exactly. -/
theorem C9_stream_lines (idHex : List Char)
    (hid : ∀ c ∈ idHex, c ∈ ("0123456789abcdef".data)) :
    format_data_stream idHex ["Hel".data, "lo".data, []] =
      [encode_start idHex, "0:\"Hel\"\n".data, "0:\"lo\"\n".data,
        encode_step_finish, encode_done] ∧
    (format_data_stream idHex ["Hel".data, "lo".data, []]).length = 5 ∧
    (∃ p, encode_start idHex = 'f' :: ':' :: (p ++ ['\n']) ∧
      jsonParse p = some (JVal.obj [("messageId".data, JVal.str ("msg-".data ++ idHex))])) ∧
    jsonLoadsStr "\"Hel\"".data = some "Hel".data ∧
    jsonLoadsStr "\"lo\"".data = some "lo".data ∧
    jsonParse (encode_step_finish.drop 2).dropLast = some stepFinishJ ∧
    jsonParse (encode_done.drop 2).dropLast = some doneJ := by
  refine ⟨rfl, rfl, ?_, rfl, rfl, rfl, rfl⟩
  refine ⟨"\x7b\"messageId\":\"msg-".data ++ (idHex ++ "\"\x7d".data), ?_,
    jsonParse_start_payload idHex hid⟩
  show "f:\x7b\"messageId\":\"msg-".data ++ (idHex ++ "\"\x7d\n".data) = _
  have hA : "f:\x7b\"messageId\":\"msg-".data =
      'f' :: ':' :: "\x7b\"messageId\":\"msg-".data := rfl
  have hB : "\"\x7d\n".data = "\"\x7d".data ++ ['\n'] := rfl
  rw [hA, hB]
  simp [List.append_assoc]

/-- **C9 witness.** The amended statement at a concrete 24-character
lowercase-hex identifier. -/
theorem C9_witness :
    format_data_stream "0123456789abcdef01234567".data
        ["Hel".data, "lo".data, []] =
      [encode_start "0123456789abcdef01234567".data, "0:\"Hel\"\n".data,
        "0:\"lo\"\n".data, encode_step_finish, encode_done] :=
  (C9_stream_lines "0123456789abcdef01234567".data (by decide)).1

/-! ## Intent Parser — `backend/chat_route.py` helpers -/

/-- `_EXACT_GREETINGS`. -/
def EXACT_GREETINGS : List (List Char) :=
  ["hi".data, "hello".data, "hey".data, "sup".data, "yo".data, "howdy".data,
    "greetings".data, "good morning".data, "good afternoon".data, "good evening".data]

/-- `_GREETING_FOLLOWUPS`. -/
def GREETING_FOLLOWUPS : List (List Char) :=
  ["there".data, "bot".data, "agent".data, "buddy".data, "friend".data,
    "everyone".data, "all".data]

/-- `_is_greeting`: exact membership of the lowercased, stripped text in the
greeting set; or a greeting word followed directly by `!`, `,` or `.`; or a
greeting word, a space and an address term, either exactly or followed by
`!` or `,`. All checks other than the exact ones look only at the front of
the text. -/
def is_greeting (text : List Char) : Bool :=
  EXACT_GREETINGS.contains (pyLower (pyStrip text)) ||
    EXACT_GREETINGS.any (fun g =>
      (g ++ ['!']).isPrefixOf (pyLower (pyStrip text)) ||
      (g ++ [',']).isPrefixOf (pyLower (pyStrip text)) ||
      (g ++ ['.']).isPrefixOf (pyLower (pyStrip text)) ||
      GREETING_FOLLOWUPS.any (fun fo =>
        pyLower (pyStrip text) == g ++ ' ' :: fo ||
        (g ++ ' ' :: fo ++ ['!']).isPrefixOf (pyLower (pyStrip text)) ||
        (g ++ ' ' :: fo ++ [',']).isPrefixOf (pyLower (pyStrip text))))

/-- `re.search(r"@([A-Za-z0-9_]{1,15})", t)`: the leftmost `@` directly
followed by a word character matches, capturing greedily up to 15 word
characters; an `@` with no word character after it is skipped and the scan
resumes at the next character. -/
def searchAt : List Char → Option (List Char)
  | [] => none
  | c :: rest =>
    if c = '@' then
      match rest with
      | c2 :: _ =>
        if isWordCharPy c2 then some ((rest.takeWhile isWordCharPy).take 15)
        else searchAt rest
      | [] => none
    else searchAt rest

/-- Is the head of the remaining input a word character (`\b` right context)? -/
def headWord : List Char → Bool
  | [] => false
  | c :: _ => isWordCharPy c

/-- Case-insensitive literal match at the front of the input (the pattern is
given lowercase; `re.IGNORECASE`). -/
def isPreCI : List Char → List Char → Bool
  | [], _ => true
  | _ :: _, [] => false
  | p :: ps, c :: cs => toLowerPy c = p && isPreCI ps cs

/-- One suffix alternative of `(?:tweets?|posts?)?` followed by `\b`: the
literal must match and, since its last character is a word character, the
following character must not be one. -/
def sfxOk (pat ak : List Char) : Bool :=
  isPreCI pat ak && !headWord (ak.drop pat.length)

/-- All continuations of `\s*(?:tweets?|posts?)?\b` for a fixed number `k` of
skipped whitespace characters, in the regex engine's alternative order
(`tweets`, `tweet`, `posts`, `post`, then the empty group). For the empty
group the `\b` sits between the last consumed character (a digit when
`k = 0`, whitespace otherwise) and the rest. -/
def sfxChainOk (after : List Char) (k : Nat) : Bool :=
  sfxOk "tweets".data (after.drop k) || sfxOk "tweet".data (after.drop k) ||
  sfxOk "posts".data (after.drop k) || sfxOk "post".data (after.drop k) ||
  (decide (k = 0) != headWord (after.drop k))

/-- Greedy `\s*`: try the maximal whitespace run first, then shorter runs. -/
def wsLoop (after : List Char) : Nat → Bool
  | 0 => sfxChainOk after 0
  | k + 1 => sfxChainOk after (k + 1) || wsLoop after k

/-- Does `\s*(?:tweets?|posts?)?\b` accept after the captured digits? -/
def tailMatch1 (after : List Char) : Bool :=
  wsLoop after (after.takeWhile isSpacePy).length

/-- `(\d{1,2})` at a fixed start (first digit already read): greedily try two
digits with every continuation, then fall back to one digit. -/
def tryPat1 (d1 : Char) (rest : List Char) : Option Nat :=
  match rest with
  | d2 :: r2 =>
    if isDigitPy d2 then
      if tailMatch1 r2 then some (10 * digitVal d1 + digitVal d2)
      else if tailMatch1 rest then some (digitVal d1)
      else none
    else if tailMatch1 rest then some (digitVal d1) else none
  | [] => if tailMatch1 [] then some (digitVal d1) else none

/-- `re.search` scan for `\b(\d{1,2})\s*(?:tweets?|posts?)?\b`: positions are
tried left to right; a position can start a match only at a digit whose
preceding character is not a word character (that is `\b` before a digit). -/
def pat1Go (prevWord : Bool) : List Char → Option Nat
  | [] => none
  | c :: rest =>
    match (if isDigitPy c && !prevWord then tryPat1 c rest else none) with
    | some n => some n
    | none => pat1Go (isWordCharPy c) rest

/-- `\blast\s+(\d{1,2})\b` at a fixed start: match `last` case-insensitively,
at least one whitespace character, then one or two digits with a trailing
`\b`; `\s+` cannot backtrack usefully because `\d` never matches whitespace,
and after two digits the one-digit fallback always fails its `\b`. -/
def tryLast (s : List Char) : Option Nat :=
  if isPreCI "last".data s then
    if ((s.drop 4).takeWhile isSpacePy).length = 0 then none
    else
      match (s.drop 4).drop ((s.drop 4).takeWhile isSpacePy).length with
      | d1 :: ds =>
        if isDigitPy d1 then
          match ds with
          | d2 :: r2 =>
            if isDigitPy d2 then
              if !headWord r2 then some (10 * digitVal d1 + digitVal d2) else none
            else if !isWordCharPy d2 then some (digitVal d1) else none
          | [] => some (digitVal d1)
        else none
      | [] => none
  else none

/-- `re.search` scan for `\blast\s+(\d{1,2})\b`; `last` starts with a word
character, so `\b` requires the previous character not to be one. -/
def lastGo (prevWord : Bool) : List Char → Option Nat
  | [] => none
  | c :: rest =>
    match (if !prevWord then tryLast (c :: rest) else none) with
    | some n => some n
    | none => lastGo (isWordCharPy c) rest

/-- `_clamp_count`: `max(1, min(30, n))`. -/
def clamp_count (n : Nat) : Nat :=
  max 1 (min 30 n)

/-- `_extract_count`: first the bounded-number pattern with its optional
`tweet(s)`/`post(s)` suffix, else the number after `last`, else 10; matched
numbers are clamped to `[1, 30]`. -/
def extract_count (text : List Char) : Nat :=
  match pat1Go false text with
  | some n => clamp_count n
  | none =>
    match lastGo false text with
    | some n => clamp_count n
    | none => 10

/-- `re.match(r"^([A-Za-z0-9_]{1,15})(?:\s+(\d+))?$", trimmed)`: the greedy
group must take the whole leading word-character run (any shorter group
leaves a word character where whitespace or end-of-input is required), so
the pattern matches exactly when the run has 1–15 characters and the
remainder is empty, or whitespace followed by digits up to the end. -/
def bareMatch (t : List Char) : Option (List Char × Option Nat) :=
  if (t.takeWhile isWordCharPy).length = 0 || 15 < (t.takeWhile isWordCharPy).length then
    none
  else
    if (t.drop (t.takeWhile isWordCharPy).length).isEmpty then
      some (t.takeWhile isWordCharPy, none)
    else
      if ((t.drop (t.takeWhile isWordCharPy).length).takeWhile isSpacePy).length = 0 then
        none
      else
        if !((t.drop (t.takeWhile isWordCharPy).length).drop
              ((t.drop (t.takeWhile isWordCharPy).length).takeWhile isSpacePy).length).isEmpty
            && ((t.drop (t.takeWhile isWordCharPy).length).drop
              ((t.drop (t.takeWhile isWordCharPy).length).takeWhile isSpacePy).length).all
              isDigitPy then
          some (t.takeWhile isWordCharPy,
            some (natOfDigits ((t.drop (t.takeWhile isWordCharPy).length).drop
              ((t.drop (t.takeWhile isWordCharPy).length).takeWhile isSpacePy).length)))
        else none

/-- `_parse_username_and_count`: the explicit `@username` pattern first, then
the bare-username pattern guarded by the greeting check. The source computes
`trimmed = text.strip()` once; it is inlined here. -/
def parse_username_and_count (text : List Char) : Option (List Char × Nat) :=
  match searchAt (pyStrip text) with
  | some username => some (username, extract_count (pyStrip text))
  | none =>
    match bareMatch (pyStrip text) with
    | some (username, cnt) =>
      if is_greeting (pyStrip text) then none
      else some (username, match cnt with | some n => clamp_count n | none => 10)
    | none => none

/-! ### C4: the explicit-mention branch -/

theorem clamp_count_bounds (n : Nat) : 1 ≤ clamp_count n ∧ clamp_count n ≤ 30 := by
  unfold clamp_count
  refine ⟨le_max_left 1 _, ?_⟩
  exact max_le (by norm_num) (le_trans (min_le_left _ _) (by norm_num))

theorem extract_count_bounds (t : List Char) :
    1 ≤ extract_count t ∧ extract_count t ≤ 30 := by
  unfold extract_count
  rcases h1 : pat1Go false t with _ | n
  · rcases h2 : lastGo false t with _ | n
    · simp [h1, h2]
    · simp only [h1, h2]
      exact clamp_count_bounds n
  · simp only [h1]
    exact clamp_count_bounds n

theorem searchAt_isSome : ∀ (p : List Char) (c : Char) (post : List Char),
    isWordCharPy c = true → ∃ u, searchAt (p ++ '@' :: c :: post) = some u
  | [], c, post, hc => by
    refine ⟨((c :: post).takeWhile isWordCharPy).take 15, ?_⟩
    simp [searchAt, hc]
  | x :: p', c, post, hc => by
    have ih := searchAt_isSome p' c post hc
    show ∃ u, searchAt (x :: (p' ++ '@' :: c :: post)) = some u
    by_cases hx : x = '@'
    · subst hx
      cases hp : p' ++ '@' :: c :: post with
      | nil => simp at hp
      | cons y ys =>
        by_cases hy : isWordCharPy y
        · refine ⟨((y :: ys).takeWhile isWordCharPy).take 15, ?_⟩
          simp [searchAt, hy]
        · rcases ih with ⟨u, hu⟩
          refine ⟨u, ?_⟩
          have hred : searchAt ('@' :: y :: ys) = searchAt (y :: ys) := by
            simp [searchAt, hy]
          rw [hred, ← hp]
          exact hu
    · rcases ih with ⟨u, hu⟩
      refine ⟨u, ?_⟩
      simpa [searchAt, hx] using hu

/-- **C4.** For every input whose stripped text contains an `@` followed by a
word character, the parser returns a DataQuery: the username is the captured
group of the `@` pattern and the count comes from `_extract_count` (bounded
pattern first, then the `last` pattern, default 10), clamped to `[1, 30]`;
and on `"check @alice_99 last 5 tweets"` it returns username `alice_99`
with count 5. -/
theorem C4_parser_at_branch :
    (∀ text : List Char,
      (∃ p c post, pyStrip text = p ++ '@' :: c :: post ∧ isWordCharPy c = true) →
      ∃ u, searchAt (pyStrip text) = some u ∧
        parse_username_and_count text = some (u, extract_count (pyStrip text)) ∧
        1 ≤ extract_count (pyStrip text) ∧ extract_count (pyStrip text) ≤ 30) ∧
    parse_username_and_count "check @alice_99 last 5 tweets".data =
      some ("alice_99".data, 5) := by
  constructor
  · rintro text ⟨p, c, post, hdecomp, hc⟩
    rcases searchAt_isSome p c post hc with ⟨u, hu⟩
    rw [← hdecomp] at hu
    refine ⟨u, hu, ?_, (extract_count_bounds _).1, (extract_count_bounds _).2⟩
    simp only [parse_username_and_count, hu]
  · rfl

/-- **C4 witness.** The universally quantified branch applied at the concrete
input of the claim. -/
theorem C4_witness :
    ∃ u, searchAt (pyStrip "check @alice_99 last 5 tweets".data) = some u ∧
      parse_username_and_count "check @alice_99 last 5 tweets".data =
        some (u, extract_count (pyStrip "check @alice_99 last 5 tweets".data)) ∧
      1 ≤ extract_count (pyStrip "check @alice_99 last 5 tweets".data) ∧
      extract_count (pyStrip "check @alice_99 last 5 tweets".data) ≤ 30 :=
  C4_parser_at_branch.1 "check @alice_99 last 5 tweets".data
    ⟨"check ".data, 'a', "lice_99 last 5 tweets".data, rfl, rfl⟩

/-! ### Greeting detection is only about the front of the text -/

/-- A greeting word followed by `!`, `,` or `.` at the front of the
lowercased, stripped text makes `_is_greeting` answer true, whatever
follows; likewise for a greeting word, a space and an address term followed
by `!` or `,`. -/
theorem is_greeting_of_head (text : List Char)
    (h : ∃ g ∈ EXACT_GREETINGS,
      (g ++ ['!']).isPrefixOf (pyLower (pyStrip text)) = true ∨
      (g ++ [',']).isPrefixOf (pyLower (pyStrip text)) = true ∨
      (g ++ ['.']).isPrefixOf (pyLower (pyStrip text)) = true ∨
      ∃ fo ∈ GREETING_FOLLOWUPS,
        (g ++ ' ' :: fo ++ ['!']).isPrefixOf (pyLower (pyStrip text)) = true ∨
        (g ++ ' ' :: fo ++ [',']).isPrefixOf (pyLower (pyStrip text)) = true) :
    is_greeting text = true := by
  rcases h with ⟨g, hg, hcase⟩
  unfold is_greeting
  rw [Bool.or_eq_true]
  right
  rw [List.any_eq_true]
  refine ⟨g, hg, ?_⟩
  rcases hcase with h1 | h1 | h1 | ⟨fo, hfo, h2 | h2⟩
  · simp [h1]
  · simp [h1]
  · simp [h1]
  · have hany : GREETING_FOLLOWUPS.any (fun fo =>
        pyLower (pyStrip text) == g ++ ' ' :: fo ||
        (g ++ ' ' :: fo ++ ['!']).isPrefixOf (pyLower (pyStrip text)) ||
        (g ++ ' ' :: fo ++ [',']).isPrefixOf (pyLower (pyStrip text))) = true :=
      List.any_eq_true.mpr ⟨fo, hfo, by
        rw [Bool.or_eq_true]
        exact Or.inl (by rw [Bool.or_eq_true]; exact Or.inr h2)⟩
    rw [Bool.or_eq_true]
    exact Or.inr hany
  · have hany : GREETING_FOLLOWUPS.any (fun fo =>
        pyLower (pyStrip text) == g ++ ' ' :: fo ||
        (g ++ ' ' :: fo ++ ['!']).isPrefixOf (pyLower (pyStrip text)) ||
        (g ++ ' ' :: fo ++ [',']).isPrefixOf (pyLower (pyStrip text))) = true :=
      List.any_eq_true.mpr ⟨fo, hfo, by
        rw [Bool.or_eq_true]
        exact Or.inr h2⟩
    rw [Bool.or_eq_true]
    exact Or.inr hany

/-! ## Data Fetch Adapter — `backend/sela_adapter.py`

`sela_get_user_tweets` wraps its whole body in `try/except`. Everything the
external world decides — client initialization, the browse call, network and
credential failures — is collapsed into a `FetchOutcome` parameter: `raises`
is any exception escaping `_ensure_client`/`client.browse` (its message is
`str(exc)`), `returns` is a successful browse response with its list of raw
content entries. Exceptions raised while normalizing entries (a parsed
`fields_json` that is valid JSON but not an object has no `.get`) are caught
by the same handler; `processContent` mirrors that with `Except`. The
`_log` calls only append to the activity log, which the orchestrator model
carries separately. -/

/-- One entry of `response.page.content`. `fields_json` is `none` when the
SDK hands back a non-string (then `json.loads` raises `TypeError`, caught). -/
structure RawContent where
  content_type : Option (List Char)
  fields_json : Option (List Char)

/-- What the external world does for one fetch. -/
inductive FetchOutcome where
  | raises (msg : List Char)
  | returns (content : List RawContent)

/-- `SelaContentItem` (normalized entry). `url` is whatever
`fields.get("url")` returns. -/
structure SelaContentItem where
  content_type : List Char
  fields : List (List Char × JVal)
  url : Option JVal

/-- `SelaUserTweetsResult`. -/
structure SelaUserTweetsResult where
  username : List Char
  items : List SelaContentItem
  authenticated : Bool
  error : Option (List Char)

/-- `dict.get(key)`: the value stored under `key`, `None` when absent.
Python dicts built by `json.loads` keep the last of a repeated key. -/
def pyDictGet (ms : List (List Char × JVal)) (k : List Char) : Option JVal :=
  (ms.reverse.find? (fun kv => kv.1 == k)).map (fun kv => kv.2)

/-- `json.loads(sc.fields_json)` with the adapter's fallback: a decode error
gives `{"raw": fields_json}` and a non-string gives `{"raw": None}`. The
parser here reads the whitespace-free JSON subset; the adapter only cares
whether the result is a dict, so the claims are insensitive to the
difference from the full grammar. -/
def fieldsOf (fj : Option (List Char)) : JVal :=
  match fj with
  | none => JVal.obj [("raw".data, JVal.null)]
  | some s =>
    match jsonParse s with
    | some v => v
    | none => JVal.obj [("raw".data, JVal.str s)]

/-- One normalized entry: `sc.content_type or "tweet"`, the parsed fields,
and `fields.get("url")`. -/
def normalizeItem (sc : RawContent) (ms : List (List Char × JVal)) : SelaContentItem where
  content_type :=
    match sc.content_type with
    | some ct => if ct.isEmpty then "tweet".data else ct
    | none => "tweet".data
  fields := ms
  url := pyDictGet ms "url".data

/-- The normalization loop over `response.page.content`: each entry's fields
are parsed and probed with `.get`, and a non-dict `fields` value raises out
of the loop into the enclosing handler. -/
def processContent : List RawContent → Except (List Char) (List SelaContentItem)
  | [] => Except.ok []
  | sc :: rest =>
    match fieldsOf sc.fields_json with
    | JVal.obj ms =>
      match processContent rest with
      | Except.error e => Except.error e
      | Except.ok items => Except.ok (normalizeItem sc ms :: items)
    | _ => Except.error "AttributeError: object has no attribute get".data

/-- Python list slicing `l[:n]` for an `int` bound: a negative bound counts
from the end. -/
def pySliceTo (l : List SelaContentItem) (n : Int) : List SelaContentItem :=
  if n < 0 then l.take (((l.length : Int) + n).toNat) else l.take n.toNat

/-- `username.lstrip("@")`. -/
def pyLstripAt (s : List Char) : List Char :=
  s.dropWhile (fun c => c == '@')

/-- `sela_get_user_tweets`. -/
def sela_get_user_tweets (username : List Char) (count : Int)
    (outcome : FetchOutcome) : SelaUserTweetsResult :=
  match outcome with
  | FetchOutcome.raises msg =>
    { username := pyLstripAt username, items := [], authenticated := false,
      error := some msg }
  | FetchOutcome.returns content =>
    match processContent content with
    | Except.error msg =>
      { username := pyLstripAt username, items := [], authenticated := false,
        error := some msg }
    | Except.ok items =>
      { username := pyLstripAt username, items := pySliceTo items count,
        authenticated := true, error := none }

/-- **C3 counterexample.** With a successful empty browse response and the
requested count `-1`, the adapter returns no items, and `0 ≤ -1` fails: the
claimed bound `|items| ≤ count` is false for a negative requested count
(Python's `items[:count]` slices from the end instead of enforcing it). -/
theorem C3_counterexample :
    ¬(((sela_get_user_tweets "bob".data (-1) (FetchOutcome.returns [])).items.length : Int) ≤
      -1) := by
  decide

/-- **C3 amended.** The adapter never raises past its boundary (it is a total
function of the outcome): on any failure it returns a result with `error`
set and an empty item list; `error` set implies `items` empty; and for every
nonnegative requested count the number of items is at most the count. -/
theorem C3_adapter_invariants (username : List Char) (count : Int)
    (outcome : FetchOutcome) :
    ((sela_get_user_tweets username count outcome).error.isSome →
      (sela_get_user_tweets username count outcome).items = []) ∧
    (∀ msg, outcome = FetchOutcome.raises msg →
      (sela_get_user_tweets username count outcome).error = some msg ∧
      (sela_get_user_tweets username count outcome).items = []) ∧
    (0 ≤ count →
      ((sela_get_user_tweets username count outcome).items.length : Int) ≤ count) := by
  rcases outcome with msg | content
  · refine ⟨fun _ => rfl, ?_, ?_⟩
    · intro m hm
      injection hm with h
      subst h
      exact ⟨rfl, rfl⟩
    · intro hc
      simp only [sela_get_user_tweets, List.length_nil, Int.natCast_zero]
      omega
  · rcases hp : processContent content with e | items
    · refine ⟨?_, ?_, ?_⟩
      · intro
        simp [sela_get_user_tweets, hp]
      · intro m hm
        simp at hm
      · intro hc
        simp only [sela_get_user_tweets, hp, List.length_nil, Int.natCast_zero]
        omega
    · refine ⟨?_, ?_, ?_⟩
      · intro hs
        simp [sela_get_user_tweets, hp] at hs
      · intro m hm
        simp at hm
      · intro hc
        simp only [sela_get_user_tweets, hp, pySliceTo]
        rw [if_neg (by omega)]
        have h1 : (items.take count.toNat).length ≤ count.toNat := by
          simp [List.length_take]
        omega

/-- **C3 witness.** The raising outcome at concrete inputs: the error is
surfaced in the result and the item list is empty. -/
theorem C3_witness :
    (sela_get_user_tweets "bob".data 5 (FetchOutcome.raises "boom".data)).error =
      some "boom".data ∧
    (sela_get_user_tweets "bob".data 5 (FetchOutcome.raises "boom".data)).items = [] :=
  (C3_adapter_invariants "bob".data 5 (FetchOutcome.raises "boom".data)).2.1
    "boom".data rfl

/-! ## Prompt Synthesizer — `backend/tweet_summary_engine.py` -/

/-- Python truthiness of an optional string (`if tweets.error:`): `None` and
the empty string are falsy. -/
def optStrTruthy : Option (List Char) → Bool
  | some s => !s.isEmpty
  | none => false

/-- Python truthiness of a JSON-decoded value. -/
def jTruthy : JVal → Bool
  | JVal.str s => !s.isEmpty
  | JVal.num n => decide (n ≠ 0)
  | JVal.bool b => b
  | JVal.null => false
  | JVal.arr xs => !xs.isEmpty
  | JVal.obj ms => !ms.isEmpty

/-- Truthiness of a `dict.get` result (`None` when the key is absent). -/
def optJTruthy : Option JVal → Bool
  | some v => jTruthy v
  | none => false

/-- Python `a or b` over `dict.get` results: the left operand if truthy,
else the right. -/
def pyOrJ (a b : Option JVal) : Option JVal :=
  if optJTruthy a then a else b

/-- `f.get(k1) or f.get(k2) or ""`. -/
def aliasGet2 (f : List (List Char × JVal)) (k1 k2 : List Char) : JVal :=
  (pyOrJ (pyOrJ (pyDictGet f k1) (pyDictGet f k2)) (some (JVal.str []))).getD (JVal.str [])

/-- `f.get(k1) or f.get(k2) or f.get(k3) or ""`. -/
def aliasGet3 (f : List (List Char × JVal)) (k1 k2 k3 : List Char) : JVal :=
  (pyOrJ (pyOrJ (pyOrJ (pyDictGet f k1) (pyDictGet f k2)) (pyDictGet f k3))
    (some (JVal.str []))).getD (JVal.str [])

/-- Python `str()` of a JSON-decoded value, as interpolated into the entry
text. Lists and dicts get a marker rendering rather than full `repr` — no
claim depends on those cases. -/
def pyStrJ : JVal → List Char
  | JVal.str s => s
  | JVal.num n => (Nat.repr n).data
  | JVal.bool true => "True".data
  | JVal.bool false => "False".data
  | JVal.null => "None".data
  | JVal.arr _ => "[...]".data
  | JVal.obj _ => "\x7b...\x7d".data

/-- One numbered entry of the tweet list (`enumerate` index `i`, so the
printed number is `i + 1`; the primary text is truncated to 400 chars). -/
def tweetEntry (username : List Char) (i : Nat) (item : SelaContentItem) : List Char :=
  (Nat.repr (i + 1)).data ++ ". ".data ++
    (pyStrJ (aliasGet3 item.fields "content".data "text".data "title".data)).take 400 ++
  (if jTruthy (aliasGet3 item.fields "timestamp".data "date".data "time".data) then
    "\n   Time: ".data ++
      pyStrJ (aliasGet3 item.fields "timestamp".data "date".data "time".data)
  else []) ++
  (if jTruthy (aliasGet2 item.fields "like_count".data "likes".data) then
    " | Likes: ".data ++ pyStrJ (aliasGet2 item.fields "like_count".data "likes".data)
  else []) ++
  (if jTruthy (aliasGet2 item.fields "retweet_count".data "retweets".data) then
    " | Retweets: ".data ++ pyStrJ (aliasGet2 item.fields "retweet_count".data "retweets".data)
  else []) ++
  (if jTruthy (aliasGet2 item.fields "reply_count".data "replies".data) then
    " | Replies: ".data ++ pyStrJ (aliasGet2 item.fields "reply_count".data "replies".data)
  else []) ++
  (if jTruthy (aliasGet2 item.fields "author_name".data "author".data) &&
      !(pyLower (pyStrJ (aliasGet2 item.fields "author_name".data "author".data)) ==
        pyLower username) then
    " | Author: ".data ++ pyStrJ (aliasGet2 item.fields "author_name".data "author".data)
  else []) ++
  (if jTruthy (aliasGet2 item.fields "is_reply".data "in_reply_to".data) then
    " | [Reply]".data
  else []) ++
  (if jTruthy (aliasGet2 item.fields "is_retweet".data "retweeted".data) then
    " | [Retweet]".data
  else [])

/-- The entries in order, numbered from 1. -/
def tweetEntriesFrom (username : List Char) (i : Nat) :
    List SelaContentItem → List (List Char)
  | [] => []
  | it :: rest => tweetEntry username i it :: tweetEntriesFrom username (i + 1) rest

/-- `str.join`. -/
def joinSep (sep : List Char) : List (List Char) → List Char
  | [] => []
  | [x] => x
  | x :: y :: rest => x ++ sep ++ joinSep sep (y :: rest)

/-- The closing instruction text of the error branch. -/
def errRulesTail : List Char :=
  "\n\nPlease respond with an appropriate error message based on the AGENT.md error handling rules.".data

/-- The no-items branch text (`'` written as a character code). -/
def emptyItemsPrompt (username : List Char) : List Char :=
  "I fetched @".data ++ username ++
    (Char.ofNat 39 ::
      "s profile but found no recent tweets.\n\nPlease respond with an appropriate message (e.g., \"@".data) ++
    username ++ " hasn".data ++ [Char.ofNat 39] ++ "t posted recently.\").".data

/-- The success-branch template around the rendered entries. -/
def successPrompt (username : List Char) (items : List SelaContentItem)
    (count : Int) : List Char :=
  "Summarize recent Twitter/X activity for @".data ++ username ++
    ".\n\n## Retrieved Data\n\n**Tweets retrieved:** ".data ++
    (Nat.repr items.length).data ++ " (via authenticated Sela Network session)\n".data ++
    (if (items.length : Int) < count then
      "\nNote: ".data ++ (toString count).data ++
        " tweets were requested but only ".data ++ (Nat.repr items.length).data ++
        " were retrieved. Mention this in the summary.".data
    else []) ++
    "\n\n".data ++
    joinSep "\n".data ((tweetEntriesFrom username 0 items).map (fun e => '\n' :: e)) ++
    "\n\n## Instructions\n\nBased ONLY on the tweets above, produce an activity summary following the exact structure from your system prompt:\n- Activity Summary header with @".data ++
    username ++
    "\n- \"Retrieved N tweets via authenticated Sela Network session.\"\n- Posting frequency\n- Main topics (grouped by theme, specific not vague)\n- Content breakdown (originals / replies / retweets / threads)\n- Notable observations\n- Engagement snapshot\n\nRULES:\n- Be factual. Do not interpret intent, mood, or sentiment.\n- Be specific with topic descriptions.\n- Group by topic, not chronology.\n- Do not reproduce full tweet text.\n- Do not expose private information.\n- State that content was accessed via an authenticated Sela Network session.".data

/-- `build_tweet_summary_prompt`. -/
def build_tweet_summary_prompt (username : List Char) (tweets : SelaUserTweetsResult)
    (count : Int) : List Char :=
  if optStrTruthy tweets.error then
    "I tried to fetch tweets for @".data ++ username ++
      " but encountered an error: ".data ++ tweets.error.getD [] ++ errRulesTail
  else if tweets.items.isEmpty then emptyItemsPrompt username
  else successPrompt username tweets.items count

/-- **C7 counterexample.** A `FetchResult` whose error field is set to the
empty string (`str(exc)` can be empty) is falsy under `if tweets.error:`,
so the Synthesizer returns exactly the no-items string: the output is not
distinct from the empty-items/no-error output, contains no literal-error
text and no error-handling instruction, refuting the claim as stated for
that input. -/
theorem C7_counterexample :
    build_tweet_summary_prompt "bob".data
        ⟨"bob".data, [], false, some []⟩ 10 =
      build_tweet_summary_prompt "bob".data ⟨"bob".data, [], false, none⟩ 10 := rfl

/-- **C7 amended.** For every FetchResult whose error field is set to a
non-empty string, the Synthesizer returns exactly the error template — an
apology naming the username, the literal error string, and the instruction
to follow the AGENT.md error-handling rules, with no item list — and that
string differs from the one returned for an empty item list with no error. -/
theorem C7_error_prompt (username e : List Char) (he : e ≠ [])
    (items : List SelaContentItem) (auth : Bool) (uname : List Char) (count : Int) :
    build_tweet_summary_prompt username ⟨uname, items, auth, some e⟩ count =
      "I tried to fetch tweets for @".data ++ username ++
        " but encountered an error: ".data ++ e ++ errRulesTail ∧
    build_tweet_summary_prompt username ⟨uname, items, auth, some e⟩ count ≠
      build_tweet_summary_prompt username ⟨uname, [], auth, none⟩ count := by
  have htr : optStrTruthy (some e) = true := by
    simp [optStrTruthy, he]
  constructor
  · simp only [build_tweet_summary_prompt, htr, if_true, Option.getD_some]
  · intro h
    simp only [build_tweet_summary_prompt, htr, if_true, Option.getD_some] at h
    rw [if_neg (by simp [optStrTruthy]), if_pos (by simp)] at h
    have h2 := congrArg (fun l => l.get? 2) h
    rw [show (fun l : List Char => l.get? 2)
        ("I tried to fetch tweets for @".data ++ username ++
          " but encountered an error: ".data ++ e ++ errRulesTail) =
        ("I tried to fetch tweets for @".data ++ (username ++
          (" but encountered an error: ".data ++ (e ++ errRulesTail)))).get? 2 by
      simp [List.append_assoc]] at h2
    rw [show emptyItemsPrompt username = "I fetched @".data ++ (username ++
        ((Char.ofNat 39 ::
          "s profile but found no recent tweets.\n\nPlease respond with an appropriate message (e.g., \"@".data) ++
          (username ++ (" hasn".data ++ ([Char.ofNat 39] ++ "t posted recently.\").".data)))))
        from by simp [emptyItemsPrompt, List.append_assoc]] at h2
    rw [List.get?_append (by decide)] at h2
    simp only [] at h2
    rw [List.get?_append (by decide)] at h2
    exact absurd h2 (by decide)

/-- **C7 witness.** The amended statement at the concrete error `"boom"`:
the output is the error template and so contains the literal `boom`. -/
theorem C7_witness :
    build_tweet_summary_prompt "alice".data
        ⟨"alice".data, [], false, some "boom".data⟩ 10 =
      "I tried to fetch tweets for @".data ++ "alice".data ++
        " but encountered an error: ".data ++ "boom".data ++ errRulesTail :=
  (C7_error_prompt "alice".data "boom".data (by decide) [] false "alice".data 10).1

/-! ## Activity log serialization — `get_activity_log` and the header logic

`get_activity_log` renders each `ActivityLogEntry` as a dict with the keys
`id, timestamp, type, platform, message, url, details` in that order;
`chat` serializes the list with `json.dumps` (separators `", "` and `": "`,
ensure_ascii) and truncates to the last ten entries when the serialized
form is longer than 7000 characters (all ASCII, so characters = bytes). -/

/-- One activity-log entry (`type` is a Lean keyword, hence `type_`). -/
structure ActivityLogEntry where
  id : List Char
  timestamp : List Char
  type_ : List Char
  platform : List Char
  message : List Char
  url : Option (List Char)
  details : Option (List Char)

/-- `json.dumps` of a string-or-None value. -/
def dumpOptStr : Option (List Char) → List Char
  | some s => jsonDumpsStr s
  | none => "null".data

/-- `json.dumps` of one entry dict, key order as built by
`get_activity_log`. -/
def dumpEntry (e : ActivityLogEntry) : List Char :=
  "\x7b\"id\": ".data ++ jsonDumpsStr e.id ++
    ", \"timestamp\": ".data ++ jsonDumpsStr e.timestamp ++
    ", \"type\": ".data ++ jsonDumpsStr e.type_ ++
    ", \"platform\": ".data ++ jsonDumpsStr e.platform ++
    ", \"message\": ".data ++ jsonDumpsStr e.message ++
    ", \"url\": ".data ++ dumpOptStr e.url ++
    ", \"details\": ".data ++ dumpOptStr e.details ++
    "\x7d".data

/-- `json.dumps` of the whole log list. -/
def dumpLog (l : List ActivityLogEntry) : List Char :=
  "[".data ++ joinSep ", ".data (l.map dumpEntry) ++ "]".data

/-- The header computation in `chat`: the serialized log, re-serialized from
the last ten entries when longer than 7000. -/
def activity_log_header (l : List ActivityLogEntry) : List Char :=
  if 7000 < (dumpLog l).length then dumpLog (l.drop (l.length - 10)) else dumpLog l

/-! ### Deserializing the emitted header

A parser for exactly the JSON grammar `dumpLog` emits (an array of flat
string/null objects with `", "`/`": "` separators); proving it a left
inverse of `dumpLog` shows the header is unambiguous JSON deserializable
back to the entries. -/

/-- Consume an expected literal. -/
def expectLit (lit s : List Char) : Option (List Char) :=
  if lit.isPrefixOf s then some (s.drop lit.length) else none

/-- Parse a JSON string literal. -/
def parseJStr (s : List Char) : Option (List Char × List Char) :=
  match s with
  | c :: r => if c = '"' then decStr r else none
  | [] => none

/-- Parse a JSON string literal or `null`. -/
def parseOptStr (s : List Char) : Option (Option (List Char) × List Char) :=
  if "null".data.isPrefixOf s then some (none, s.drop 4)
  else
    match parseJStr s with
    | some (t, r) => some (some t, r)
    | none => none

/-- Parse one key-and-string-value segment: the expected literal holding the
key and separator, then a JSON string literal. -/
def parseSeg (lit s : List Char) : Option (List Char × List Char) :=
  match expectLit lit s with
  | none => none
  | some s1 => parseJStr s1

/-- Parse one key-and-optional-string-value segment. -/
def parseSegOpt (lit s : List Char) : Option (Option (List Char) × List Char) :=
  match expectLit lit s with
  | none => none
  | some s1 => parseOptStr s1

/-- Parse one entry object. -/
def parseEntry (s : List Char) : Option (ActivityLogEntry × List Char) :=
  match parseSeg "\x7b\"id\": ".data s with
  | none => none
  | some (idv, s2) =>
    match parseSeg ", \"timestamp\": ".data s2 with
    | none => none
    | some (ts, s4) =>
      match parseSeg ", \"type\": ".data s4 with
      | none => none
      | some (ty, s6) =>
        match parseSeg ", \"platform\": ".data s6 with
        | none => none
        | some (pf, s8) =>
          match parseSeg ", \"message\": ".data s8 with
          | none => none
          | some (msg, s10) =>
            match parseSegOpt ", \"url\": ".data s10 with
            | none => none
            | some (url, s12) =>
              match parseSegOpt ", \"details\": ".data s12 with
              | none => none
              | some (det, s14) =>
                match expectLit "\x7d".data s14 with
                | none => none
                | some s15 => some (⟨idv, ts, ty, pf, msg, url, det⟩, s15)

/-- Parse `", "`-separated entries up to and including the closing `]`. -/
def parseEntries : Nat → List Char → Option (List ActivityLogEntry × List Char)
  | 0, _ => none
  | fuel + 1, s =>
    match parseEntry s with
    | none => none
    | some (e, r) =>
      match r with
      | [] => none
      | c :: r2 =>
        if c = ']' then some ([e], r2)
        else if c = ',' then
          match r2 with
          | [] => none
          | c2 :: r3 =>
            if c2 = ' ' then (parseEntries fuel r3).map (fun p => (e :: p.1, p.2))
            else none
        else none

/-- Deserialize a whole serialized log; the input must be consumed
entirely. -/
def parse_activity_log (s : List Char) : Option (List ActivityLogEntry) :=
  match s with
  | [] => none
  | c :: r =>
    if c = '[' then
      match r with
      | [] => none
      | c2 :: r2 =>
        if c2 = ']' then (if r2.isEmpty then some [] else none)
        else
          match parseEntries ((c2 :: r2).length + 1) (c2 :: r2) with
          | some (entries, rem) => if rem.isEmpty then some entries else none
          | none => none
    else none

theorem isPrefixOf_append_self (lit r : List Char) :
    lit.isPrefixOf (lit ++ r) = true := by
  induction lit with
  | nil => simp [List.isPrefixOf]
  | cons c cs ih => simp [List.isPrefixOf, ih]

theorem expectLit_append (lit r : List Char) : expectLit lit (lit ++ r) = some r := by
  unfold expectLit
  rw [if_pos (isPrefixOf_append_self lit r)]
  rw [List.drop_left]

theorem parseJStr_dump (t rest : List Char) :
    parseJStr (jsonDumpsStr t ++ rest) = some (t, rest) := by
  show parseJStr ('"' :: ((escAll t ++ ['"']) ++ rest)) = _
  simp only [parseJStr]
  simp only [reduceIte]
  rw [List.append_assoc]
  exact decStr_escAll t rest

theorem parseOptStr_dump (o : Option (List Char)) (rest : List Char) :
    parseOptStr (dumpOptStr o ++ rest) = some (o, rest) := by
  rcases o with _ | s
  · show parseOptStr ("null".data ++ rest) = _
    unfold parseOptStr
    rw [if_pos (isPrefixOf_append_self _ _)]
    rw [show (4 : Nat) = ("null".data).length from rfl, List.drop_left]
  · show parseOptStr (jsonDumpsStr s ++ rest) = _
    unfold parseOptStr
    rw [if_neg (by
      show ¬("null".data.isPrefixOf ('"' :: (escAll s ++ ['"']) ++ rest) = true)
      simp [List.isPrefixOf])]
    rw [parseJStr_dump]

theorem parseSeg_dump (lit t rest : List Char) :
    parseSeg lit (lit ++ (jsonDumpsStr t ++ rest)) = some (t, rest) := by
  unfold parseSeg
  rw [expectLit_append]
  exact parseJStr_dump t rest

theorem parseSegOpt_dump (lit : List Char) (o : Option (List Char)) (rest : List Char) :
    parseSegOpt lit (lit ++ (dumpOptStr o ++ rest)) = some (o, rest) := by
  unfold parseSegOpt
  rw [expectLit_append]
  exact parseOptStr_dump o rest

theorem parseEntry_dump (e : ActivityLogEntry) (rest : List Char) :
    parseEntry (dumpEntry e ++ rest) = some (e, rest) := by
  unfold parseEntry dumpEntry
  simp only [List.append_assoc]
  rw [parseSeg_dump]
  simp only []
  rw [parseSeg_dump]
  simp only []
  rw [parseSeg_dump]
  simp only []
  rw [parseSeg_dump]
  simp only []
  rw [parseSeg_dump]
  simp only []
  rw [parseSegOpt_dump]
  simp only []
  rw [parseSegOpt_dump]
  simp only []
  rw [expectLit_append]

theorem joinSep_cons2 (sep x y : List Char) (zs : List (List Char)) :
    joinSep sep (x :: y :: zs) = x ++ (sep ++ joinSep sep (y :: zs)) := by
  simp [joinSep]

theorem sepCons_eq (X : List Char) : ", ".data ++ X = ',' :: ' ' :: X := rfl

theorem parseEntries_dump : ∀ (l : List ActivityLogEntry) (fuel : Nat) (rest : List Char),
    l ≠ [] → l.length ≤ fuel →
    parseEntries fuel (joinSep ", ".data (l.map dumpEntry) ++ ']' :: rest) = some (l, rest)
  | [], _, _, h, _ => absurd rfl h
  | [e], fuel, rest, _, hf => by
    have hfe : fuel = (fuel - 1) + 1 := by
      simp only [List.length_cons, List.length_nil] at hf
      omega
    rw [hfe]
    show parseEntries _ (dumpEntry e ++ ']' :: rest) = _
    simp only [parseEntries, parseEntry_dump]
    simp
  | e :: e2 :: l', fuel, rest, _, hf => by
    have hfe : fuel = (fuel - 1) + 1 := by
      simp only [List.length_cons] at hf
      omega
    have ih := parseEntries_dump (e2 :: l') (fuel - 1) rest (by simp)
      (by simp only [List.length_cons] at hf ⊢; omega)
    simp only [List.map_cons] at ih
    rw [hfe, List.map_cons, List.map_cons, joinSep_cons2]
    simp only [List.append_assoc]
    rw [sepCons_eq]
    simp only [parseEntries, parseEntry_dump]
    simp [ih]

/-- A serialized log has at least as many characters as entries. -/
theorem joinSep_dump_length (l : List ActivityLogEntry) :
    l.length ≤ (joinSep ", ".data (l.map dumpEntry)).length := by
  match l with
  | [] => simp [joinSep]
  | [e] =>
    show 1 ≤ (dumpEntry e).length
    unfold dumpEntry
    simp only [List.length_append, List.length_cons, List.length_nil]
    omega
  | e :: e2 :: l' =>
    have ih := joinSep_dump_length (e2 :: l')
    show (e :: e2 :: l').length ≤
      ((dumpEntry e ++ ", ".data) ++ joinSep ", ".data ((e2 :: l').map dumpEntry)).length
    have h1 : 1 ≤ (dumpEntry e).length := by
      unfold dumpEntry
      simp only [List.length_append, List.length_cons, List.length_nil]
      omega
    simp only [List.length_append, List.length_cons] at ih ⊢
    omega

theorem parse_activity_log_eq (c2 : Char) (r2 : List Char) :
    parse_activity_log ('[' :: c2 :: r2) =
      (if c2 = ']' then (if r2.isEmpty then some [] else none)
       else
         match parseEntries ((c2 :: r2).length + 1) (c2 :: r2) with
         | some (entries, rem) => if rem.isEmpty then some entries else none
         | none => none) := rfl

theorem joinSep_dump_cons (e : ActivityLogEntry) (l2 : List ActivityLogEntry) :
    ∃ t, joinSep ", ".data (List.map dumpEntry (e :: l2)) = '\x7b' :: t := by
  rcases l2 with _ | ⟨e2, l3⟩
  · exact ⟨_, rfl⟩
  · exact ⟨_, rfl⟩

/-- Deserializing a serialized log returns exactly the entries. -/
theorem parse_dumpLog (l : List ActivityLogEntry) :
    parse_activity_log (dumpLog l) = some l := by
  match l with
  | [] => rfl
  | e :: l2 =>
    have hjoin : dumpLog (e :: l2) =
        '[' :: (joinSep ", ".data (List.map dumpEntry (e :: l2)) ++ ']' :: []) := rfl
    have hne : joinSep ", ".data (List.map dumpEntry (e :: l2)) ++ ']' :: [] ≠ [] := by
      intro hx
      exact absurd (congrArg List.length hx) (by simp)
    rcases hcons : joinSep ", ".data (List.map dumpEntry (e :: l2)) ++ ']' :: ([] : List Char)
      with _ | ⟨c2, r2⟩
    · exact absurd hcons hne
    · rw [hjoin, hcons, parse_activity_log_eq]
      obtain ⟨t, ht⟩ := joinSep_dump_cons e l2
      have hc2 : c2 = '\x7b' := by
        rw [ht, List.cons_append] at hcons
        injection hcons with h1 h2
        exact h1.symm
      have hfirst : ¬ c2 = ']' := by
        rw [hc2]
        decide
      have hparse : parseEntries ((c2 :: r2).length + 1) (c2 :: r2) =
          some (e :: l2, []) := by
        rw [← hcons]
        exact parseEntries_dump (e :: l2) _ [] (by simp)
          (by
            have := joinSep_dump_length (e :: l2)
            simp only [List.length_append, List.length_cons, List.length_nil,
              List.length_map] at this ⊢
            omega)
      rw [if_neg hfirst, hparse]
      rfl

/-! ### C5: the x-activity-log header under the size cap -/

/-- Escaping a run of `n` letters `a` leaves its length unchanged
(`a` is printable ASCII, encoded as itself). -/
theorem escAll_replicate_a (n : Nat) :
    (escAll (List.replicate n 'a')).length = n := by
  induction n with
  | zero => rfl
  | succ k ih =>
    rw [List.replicate_succ]
    show (escAll ('a' :: List.replicate k 'a')).length = k + 1
    unfold escAll
    rw [List.map_cons, List.flatten_cons, List.length_append]
    unfold escAll at ih
    rw [ih]
    have h1 : (escChar 'a').length = 1 := rfl
    omega

/-- A single log entry whose message is 7001 letters `a`: its serialized
form alone exceeds the 7000-character cap. -/
def bigEntry : ActivityLogEntry :=
  { id := "1".data, timestamp := "t".data, type_ := "info".data,
    platform := "system".data, message := List.replicate 7001 'a',
    url := none, details := none }

theorem dumpLog_big_length : 7000 < (dumpLog [bigEntry]).length := by
  have hmsg : (jsonDumpsStr bigEntry.message).length = 7003 := by
    show ('"' :: (escAll (List.replicate 7001 'a') ++ ['"'])).length = 7003
    rw [List.length_cons, List.length_append, escAll_replicate_a]
    rfl
  show 7000 < ('[' :: (dumpEntry bigEntry ++ [']'])).length
  rw [List.length_cons, List.length_append]
  unfold dumpEntry
  simp only [List.length_append, List.length_cons, List.length_nil]
  omega

/-- **C5 counterexample.** A log of a single oversize entry serializes to
more than 7000 characters, yet the emitted header deserializes to that one
entry, not to ten: the `[-10:]` slice returns the whole list when the log
holds fewer than ten entries, so "exactly the most recent 10 entries" fails
for oversize logs shorter than ten entries. -/
theorem C5_counterexample :
    7000 < (dumpLog [bigEntry]).length ∧
    parse_activity_log (activity_log_header [bigEntry]) = some [bigEntry] ∧
    ([bigEntry] : List ActivityLogEntry).length ≠ 10 := by
  refine ⟨dumpLog_big_length, ?_, by decide⟩
  unfold activity_log_header
  rw [if_pos dumpLog_big_length]
  show parse_activity_log (dumpLog [bigEntry]) = some [bigEntry]
  exact parse_dumpLog [bigEntry]

/-- **C5 (amended).** Whenever the full serialized log exceeds 7000
characters, the emitted `x-activity-log` header is the serialization of the
last min(10, length) entries of the log: it deserializes to exactly those
entries in their original order, and to exactly ten of them when the log
holds at least ten entries. -/
theorem C5_header (l : List ActivityLogEntry) (h : 7000 < (dumpLog l).length) :
    activity_log_header l = dumpLog (l.drop (l.length - 10)) ∧
    parse_activity_log (activity_log_header l) = some (l.drop (l.length - 10)) ∧
    (10 ≤ l.length → (l.drop (l.length - 10)).length = 10) := by
  have h1 : activity_log_header l = dumpLog (l.drop (l.length - 10)) := by
    unfold activity_log_header
    rw [if_pos h]
  refine ⟨h1, ?_, ?_⟩
  · rw [h1]
    exact parse_dumpLog _
  · intro h10
    rw [List.length_drop]
    omega

theorem C5_witness :
    7000 < (dumpLog [bigEntry]).length ∧
    (activity_log_header [bigEntry] = dumpLog ([bigEntry].drop ([bigEntry].length - 10)) ∧
     parse_activity_log (activity_log_header [bigEntry]) =
       some ([bigEntry].drop ([bigEntry].length - 10)) ∧
     (10 ≤ ([bigEntry] : List ActivityLogEntry).length →
       ([bigEntry].drop ([bigEntry].length - 10)).length = 10)) :=
  ⟨dumpLog_big_length, C5_header [bigEntry] dumpLog_big_length⟩

/-! ## The chat route

`POST /api/chat` (`chat_route.py` lines 146-215). The request body is
either malformed JSON (the `request.json()` call raises), a JSON value
that is not an object (so `body.get` raises `AttributeError`), or an
object whose `messages` field is absent, not a list, or a list of message
objects. A message object carries an optional `role` string and an
optional `content` value that is a string, a list of parts, or some other
JSON value rendered by `str`. The completion call and the streaming wire
format are outside the route model; the route result records which branch
ran and exactly which flattened message list would be handed to the
completion source. -/

inductive Part
  | dict (type_ : Option (List Char)) (text : Option (List Char))
  | nondict

inductive Content
  | str (s : List Char)
  | parts (ps : List Part)
  | other (repr : List Char)

structure Message where
  role : Option (List Char)
  content : Option Content

inductive MessagesField
  | absent
  | notList
  | list (ms : List Message)

inductive ChatBody
  | badJson
  | nonDict
  | dict (messages : MessagesField)

/-- A message as flattened for the completion call: role and plain-string
content. -/
abbrev FlatMsg := List Char × List Char

inductive RouteResult
  | jsonError (msg : List Char) (status : Nat)
  | raisedAttributeError
  | raisedKeyError
  | simple (ms : List FlatMsg)
  | enriched (ms : List FlatMsg) (header : List Char)

/-- `isinstance(p, dict) and p.get("type") == "text"`. -/
def partIsText : Part → Bool
  | Part.dict t _ => t == some "text".data
  | Part.nondict => false

/-- `p.get("text", "")`. -/
def partText : Part → List Char
  | Part.dict _ tx => tx.getD []
  | Part.nondict => []

/-- `_extract_user_query`: string content passes through; a parts list
joins the texts of its `"text"`-typed dict parts with single spaces;
anything else is rendered by `str` (kept abstract as the stored
rendering); a missing `content` key defaults to the empty string. -/
def extract_user_query (m : Message) : List Char :=
  match m.content with
  | none => []
  | some (Content.str s) => s
  | some (Content.parts ps) => joinSep [Char.ofNat 32] ((ps.filter partIsText).map partText)
  | some (Content.other r) => r

/-- `m.get("role") == "user"`. -/
def roleUser (m : Message) : Bool :=
  m.role == some "user".data

/-- `{"role": m["role"], "content": _extract_user_query(m)}`: the `m["role"]`
subscript raises `KeyError` when the key is absent. -/
def flatten1 (m : Message) : Option FlatMsg :=
  match m.role with
  | none => none
  | some r => some (r, extract_user_query m)

/-- The flattening list comprehension over a message list; `none` when any
element raises. -/
def flattenAll : List Message → Option (List FlatMsg)
  | [] => some []
  | m :: ms =>
    match flatten1 m with
    | none => none
    | some f => (flattenAll ms).map (fun l => f :: l)

/-- `_stream_simple`: flatten every message and stream a plain completion
over them. -/
def stream_simple (msgs : List Message) : RouteResult :=
  match flattenAll msgs with
  | none => RouteResult.raisedKeyError
  | some flat => RouteResult.simple flat

/-- The enriched tail of `chat`: flatten `messages[:-1]`, append the
synthesized prompt as a fresh user turn, and attach the activity-log
header. -/
def enrichedResult (msgs : List Message) (prompt header : List Char) : RouteResult :=
  match flattenAll msgs.dropLast with
  | none => RouteResult.raisedKeyError
  | some flat => RouteResult.enriched (flat ++ [("user".data, prompt)]) header

/-- The part of `chat` after the last user message is found: the first-turn
greeting check, then the parse, then the Sela fetch and prompt synthesis. -/
def chatWithUser (msgs : List Message) (q : List Char) (fetch : FetchOutcome)
    (log : List ActivityLogEntry) : RouteResult :=
  if (((msgs.filter roleUser).length == 1) && is_greeting q) = true then
    stream_simple msgs
  else
    match parse_username_and_count q with
    | none => stream_simple msgs
    | some (username, count) =>
      enrichedResult msgs
        (build_tweet_summary_prompt username
          (sela_get_user_tweets username (count : Int) fetch) (count : Int))
        (activity_log_header log)

/-- The part of `chat` after the messages list is validated: scan for the
last user message. -/
def chatMsgs (msgs : List Message) (fetch : FetchOutcome)
    (log : List ActivityLogEntry) : RouteResult :=
  match msgs.reverse.find? roleUser with
  | none => stream_simple msgs
  | some lastUser => chatWithUser msgs (extract_user_query lastUser) fetch log

/-- `chat`: body validation, then the message-level flow. The `fetch`
parameter stands for the outcome the Sela adapter would observe, and `log`
for the activity-log contents after the fetch. -/
def chat (body : ChatBody) (fetch : FetchOutcome)
    (log : List ActivityLogEntry) : RouteResult :=
  match body with
  | ChatBody.badJson => RouteResult.jsonError "Invalid JSON body".data 400
  | ChatBody.nonDict => RouteResult.raisedAttributeError
  | ChatBody.dict MessagesField.absent =>
    RouteResult.jsonError "Invalid request: messages array required".data 400
  | ChatBody.dict MessagesField.notList =>
    RouteResult.jsonError "Invalid request: messages array required".data 400
  | ChatBody.dict (MessagesField.list msgs) => chatMsgs msgs fetch log

/-! ### C1: the message list handed to the completion call -/

/-- **C1 (amended).** When the last user turn is the final element of the
messages list, the enriched branch passes all prior turns flattened to
plain strings, followed by the synthesized prompt substituted in place of
that last user turn; the raw user text reaches the completion call only
through messages that precede the last user turn. (The route slices
`messages[:-1]`, so when turns follow the last user turn, the raw user
text is retained instead.) -/
theorem C1_enriched_substitution (pre : List Message) (lastm : Message)
    (fetch : FetchOutcome) (log : List ActivityLogEntry) (u : List Char)
    (c : Nat) (flat : List FlatMsg)
    (hrole : lastm.role = some "user".data)
    (hng : ((((pre ++ [lastm]).filter roleUser).length == 1) &&
      is_greeting (extract_user_query lastm)) = false)
    (hparse : parse_username_and_count (extract_user_query lastm) = some (u, c))
    (hflat : flattenAll pre = some flat) :
    chat (ChatBody.dict (MessagesField.list (pre ++ [lastm]))) fetch log =
      RouteResult.enriched
        (flat ++ [("user".data,
          build_tweet_summary_prompt u
            (sela_get_user_tweets u (c : Int) fetch) (c : Int))])
        (activity_log_header log) := by
  have hru : roleUser lastm = true := by
    simp [roleUser, hrole]
  show chatMsgs (pre ++ [lastm]) fetch log = _
  unfold chatMsgs
  rw [List.reverse_append, List.reverse_singleton, List.singleton_append,
    List.find?_cons_of_pos _ hru]
  show chatWithUser (pre ++ [lastm]) (extract_user_query lastm) fetch log = _
  unfold chatWithUser
  rw [hng, if_neg (by decide), hparse]
  show enrichedResult (pre ++ [lastm]) _ _ = _
  unfold enrichedResult
  rw [List.dropLast_concat, hflat]

/-- The two-turn conversation that defeats the claim: the last user turn is
followed by an assistant turn, so it is not the final message. -/
def c1msgs : List Message :=
  [⟨some "user".data, some (Content.str "check @bob 5 tweets".data)⟩,
   ⟨some "assistant".data, some (Content.str "ok".data)⟩]

/-- **C1 counterexample.** With a trailing assistant turn, the enriched
branch slices off that assistant turn (`messages[:-1]`) rather than the
last user turn, so the original raw user text is sent to the completion
source: it appears verbatim among the contents of the enriched message
list. -/
theorem C1_counterexample :
    chat (ChatBody.dict (MessagesField.list c1msgs)) (FetchOutcome.returns []) [] =
      RouteResult.enriched
        [("user".data, "check @bob 5 tweets".data),
         ("user".data, build_tweet_summary_prompt "bob".data
           (sela_get_user_tweets "bob".data 5 (FetchOutcome.returns [])) 5)]
        (activity_log_header []) ∧
    "check @bob 5 tweets".data ∈
      ([("user".data, "check @bob 5 tweets".data),
        ("user".data, build_tweet_summary_prompt "bob".data
          (sela_get_user_tweets "bob".data 5 (FetchOutcome.returns [])) 5)].map Prod.snd) := by
  refine ⟨rfl, ?_⟩
  show "check @bob 5 tweets".data ∈ "check @bob 5 tweets".data :: _
  exact List.mem_cons_self _ _

theorem C1_witness :
    ((⟨some "user".data,
        some (Content.str "hi! check @bob 5 tweets".data)⟩ : Message).role =
        some "user".data ∧
      ((((([⟨some "user".data, some (Content.str "x".data)⟩,
           ⟨some "assistant".data, some (Content.str "y".data)⟩] : List Message) ++
          ([⟨some "user".data,
            some (Content.str "hi! check @bob 5 tweets".data)⟩] : List Message)).filter
          roleUser).length == 1) &&
        is_greeting (extract_user_query
          (⟨some "user".data,
            some (Content.str "hi! check @bob 5 tweets".data)⟩ : Message))) = false ∧
      parse_username_and_count (extract_user_query
        (⟨some "user".data,
          some (Content.str "hi! check @bob 5 tweets".data)⟩ : Message)) =
        some ("bob".data, 5) ∧
      flattenAll [⟨some "user".data, some (Content.str "x".data)⟩,
        ⟨some "assistant".data, some (Content.str "y".data)⟩] =
        some [("user".data, "x".data), ("assistant".data, "y".data)]) ∧
    chat (ChatBody.dict (MessagesField.list
        ([⟨some "user".data, some (Content.str "x".data)⟩,
          ⟨some "assistant".data, some (Content.str "y".data)⟩] ++
         [⟨some "user".data,
           some (Content.str "hi! check @bob 5 tweets".data)⟩])))
        (FetchOutcome.returns []) [] =
      RouteResult.enriched
        ([("user".data, "x".data), ("assistant".data, "y".data)] ++
         [("user".data,
          build_tweet_summary_prompt "bob".data
            (sela_get_user_tweets "bob".data ((5 : Nat) : Int)
              (FetchOutcome.returns [])) ((5 : Nat) : Int))])
        (activity_log_header []) :=
  ⟨⟨rfl, rfl, rfl, rfl⟩,
    C1_enriched_substitution
      [⟨some "user".data, some (Content.str "x".data)⟩,
        ⟨some "assistant".data, some (Content.str "y".data)⟩]
      ⟨some "user".data, some (Content.str "hi! check @bob 5 tweets".data)⟩
      (FetchOutcome.returns []) [] "bob".data 5
      [("user".data, "x".data), ("assistant".data, "y".data)] rfl rfl rfl rfl⟩

/-! ### C6: malformed bodies -/

/-- **C6 (amended).** A body that fails JSON parsing yields the
non-streaming `Invalid JSON body` error with status 400, and a JSON-object
body whose `messages` field is absent or not a list yields the
non-streaming `Invalid request: messages array required` error with status
400; in each case the result is the same for every fetch outcome and
activity log, so neither the Sela adapter nor the completion source is
invoked. (A body that is valid JSON but not an object instead escapes the
route with an uncaught `AttributeError` from `body.get`.) -/
theorem C6_invalid_body (fetch fetch2 : FetchOutcome)
    (log log2 : List ActivityLogEntry) :
    chat ChatBody.badJson fetch log =
      RouteResult.jsonError "Invalid JSON body".data 400 ∧
    chat (ChatBody.dict MessagesField.absent) fetch log =
      RouteResult.jsonError "Invalid request: messages array required".data 400 ∧
    chat (ChatBody.dict MessagesField.notList) fetch log =
      RouteResult.jsonError "Invalid request: messages array required".data 400 ∧
    chat ChatBody.badJson fetch log = chat ChatBody.badJson fetch2 log2 ∧
    chat (ChatBody.dict MessagesField.absent) fetch log =
      chat (ChatBody.dict MessagesField.absent) fetch2 log2 ∧
    chat (ChatBody.dict MessagesField.notList) fetch log =
      chat (ChatBody.dict MessagesField.notList) fetch2 log2 :=
  ⟨rfl, rfl, rfl, rfl, rfl, rfl⟩

/-- **C6 counterexample.** A request body that is valid JSON but not an
object — for example the JSON array `[1]` — has no `messages` field, yet
the route does not return a 400 JSON error for it: the `body.get`
attribute access raises `AttributeError` past the route (the `try` block
covers only the JSON parse), producing a 500 response instead. -/
theorem C6_counterexample :
    chat ChatBody.nonDict (FetchOutcome.returns []) [] =
      RouteResult.raisedAttributeError ∧
    chat ChatBody.nonDict (FetchOutcome.returns []) [] ≠
      RouteResult.jsonError "Invalid JSON body".data 400 ∧
    chat ChatBody.nonDict (FetchOutcome.returns []) [] ≠
      RouteResult.jsonError "Invalid request: messages array required".data 400 := by
  refine ⟨rfl, ?_, ?_⟩
  · intro hcontra
    exact RouteResult.noConfusion hcontra
  · intro hcontra
    exact RouteResult.noConfusion hcontra

/-! ### C10: prefix-based greeting detection and the simple-reply branch -/

/-- **C10.** Greeting detection is prefix-based, not whole-utterance: any
text whose lowercased, trimmed form starts with a greeting word directly
followed by `!`, `,` or `.`, or with a greeting word, a space and an
address term followed by `!` or `,`, is classified as a greeting whatever
text follows. Consequently the first-turn utterance
`"hi! check @bob 5 tweets"` takes the simple-reply branch: the route
streams over the flattened original messages, with no dependence on the
fetch outcome (no data fetch) and no activity-log header. -/
theorem C10_greeting_prefix_branch :
    (∀ text : List Char,
      (∃ g ∈ EXACT_GREETINGS,
        (g ++ [Char.ofNat 33]).isPrefixOf (pyLower (pyStrip text)) = true ∨
        (g ++ [Char.ofNat 44]).isPrefixOf (pyLower (pyStrip text)) = true ∨
        (g ++ [Char.ofNat 46]).isPrefixOf (pyLower (pyStrip text)) = true ∨
        ∃ fo ∈ GREETING_FOLLOWUPS,
          (g ++ Char.ofNat 32 :: fo ++ [Char.ofNat 33]).isPrefixOf
            (pyLower (pyStrip text)) = true ∨
          (g ++ Char.ofNat 32 :: fo ++ [Char.ofNat 44]).isPrefixOf
            (pyLower (pyStrip text)) = true) →
      is_greeting text = true) ∧
    (∀ (fetch : FetchOutcome) (log : List ActivityLogEntry),
      chat (ChatBody.dict (MessagesField.list
          [⟨some "user".data, some (Content.str "hi! check @bob 5 tweets".data)⟩]))
          fetch log =
        RouteResult.simple [("user".data, "hi! check @bob 5 tweets".data)]) :=
  ⟨fun text h => is_greeting_of_head text h, fun _ _ => rfl⟩

theorem C10_witness :
    is_greeting "hi there! how are you".data = true ∧
    chat (ChatBody.dict (MessagesField.list
        [⟨some "user".data, some (Content.str "hi! check @bob 5 tweets".data)⟩]))
        (FetchOutcome.returns []) [] =
      RouteResult.simple [("user".data, "hi! check @bob 5 tweets".data)] :=
  ⟨C10_greeting_prefix_branch.1 "hi there! how are you".data
      ⟨"hi".data, by decide,
        Or.inr (Or.inr (Or.inr ⟨"there".data, by decide, Or.inl (by decide)⟩))⟩,
    C10_greeting_prefix_branch.2 (FetchOutcome.returns []) []⟩

end SaysSo
